import Mathlib

/-!
Shallow embedding of the P&ID tag recognition engine — the pattern
registry (`patternManager.js`), the tag classifier and token extractor
(`tagManager.js`) and the spatial instrument matcher
(`instrumentMatcher.js`) — together with theorems checking the
natural-language specification against it.

Modelling conventions:

* JavaScript floating-point numbers are modelled as exact rationals
  (`ℚ`).  Every property proved below is a comparison-level property of
  the arithmetic expressions appearing in the code.
* `Math.sqrt` (used by the fallback search only to *compare* Euclidean
  distances with each other and with the constant `100`) is modelled by
  comparing squared distances, using that the square root is strictly
  monotone on nonnegative reals: `sqrt a < sqrt b ↔ a < b` and
  `sqrt a < 100 ↔ a < 10000`.
* `Date.now()` / `new Date().toISOString()` are modelled by an explicit
  clock parameter `now : Nat` threaded into the functions that read the
  wall clock.
* A compiled JavaScript regex is modelled by its boolean test function
  `String → Bool`; the four default rules (and one user rule used in an
  example) are translated character-by-character from their concrete
  regex literals.
-/

namespace PID

/-- JavaScript whitespace class `\s`, restricted to the ASCII range
(the inputs considered contain no exotic Unicode space characters). -/
def jsSpace (c : Char) : Bool :=
  c = ' ' || c = '\t' || c = '\n' || c = '\r' || c = '\x0b' || c = '\x0c'

/-- Character class `[A-Z\d]`. -/
def upperOrDigit (c : Char) : Bool := c.isUpper || c.isDigit

/-- Character class `[A-Za-z0-9-]`. -/
def alnumOrDash (c : Char) : Bool :=
  c.isUpper || c.isLower || c.isDigit || c = '-'

/-- Bounded repetition of a character class inside an anchored regex:
`takeClass p lo hi cs k` holds iff some prefix of `cs` of length between
`lo` and `hi` consists of characters satisfying `p` and the continuation
`k` accepts the corresponding suffix (`p{lo,hi}` followed by `k`). -/
def takeClass (p : Char → Bool) : Nat → Nat → List Char → (List Char → Bool) → Bool
  | lo, hi, cs, k =>
    (decide (lo = 0) && k cs) ||
    match hi, cs with
    | hi' + 1, c :: rest => p c && takeClass p (lo - 1) hi' rest k
    | _, _ => false

/-- Unbounded repetition `p+` followed by the continuation `k`. -/
def plusClass (p : Char → Bool) : List Char → (List Char → Bool) → Bool
  | [], _ => false
  | c :: rest, k => p c && (k rest || plusClass p rest k)

/-- Optional single character `p?` followed by the continuation `k`. -/
def optClass (p : Char → Bool) (cs : List Char) (k : List Char → Bool) : Bool :=
  k cs ||
  match cs with
  | c :: rest => p c && k rest
  | [] => false

/-- Scans for a literal `-` terminating a (possibly longer) run of `.`:
`dashSplit cs k` holds iff `cs = A ++ '-' :: rest` where every character
of `A` is matched by `.` (no line terminators) and `k rest` holds. -/
def dashSplit : List Char → (List Char → Bool) → Bool
  | [], _ => false
  | c :: rest, k =>
    (c = '-' && k rest) || (!(c = '\n' || c = '\r') && dashSplit rest k)

/-- `.+-` followed by the continuation `k` (at least one `.` character,
then any later `-`). -/
def dotPlusDash (cs : List Char) (k : List Char → Bool) : Bool :=
  match cs with
  | c :: rest => !(c = '\n' || c = '\r') && dashSplit rest k
  | [] => false

/-- Test of the default rule `Line_number`,
regex `^.+-[A-Z\d]{1,4}-\s?\d{3,5}-[A-Z\d]{3,7}$`. -/
def matchLineNumber (s : String) : Bool :=
  dotPlusDash s.toList (fun cs1 =>
    takeClass upperOrDigit 1 4 cs1 (fun cs2 =>
      match cs2 with
      | '-' :: cs3 =>
        optClass jsSpace cs3 (fun cs4 =>
          takeClass Char.isDigit 3 5 cs4 (fun cs5 =>
            match cs5 with
            | '-' :: cs6 => takeClass upperOrDigit 3 7 cs6 List.isEmpty
            | _ => false))
      | _ => false))

/-- Test of the default rule `Equipment_number`,
regex `^[A-Z\d]+-[A-Z]{1,2}-\d{4}$`. -/
def matchEquipmentNumber (s : String) : Bool :=
  plusClass upperOrDigit s.toList (fun cs1 =>
    match cs1 with
    | '-' :: cs2 =>
      takeClass Char.isUpper 1 2 cs2 (fun cs3 =>
        match cs3 with
        | '-' :: cs4 => takeClass Char.isDigit 4 4 cs4 List.isEmpty
        | _ => false)
    | _ => false)

/-- Test of the default rule `Instrument_number`,
regex `^\d{4}\s?[A-Za-z0-9-]{0,3}$`. -/
def matchInstrumentNumber (s : String) : Bool :=
  takeClass Char.isDigit 4 4 s.toList (fun cs1 =>
    optClass jsSpace cs1 (fun cs2 =>
      takeClass alnumOrDash 0 3 cs2 List.isEmpty))

/-- Test of the default rule `Instrument_function`,
regex `^[A-Z]{2,4}$`. -/
def matchInstrumentFunction (s : String) : Bool :=
  takeClass Char.isUpper 2 4 s.toList List.isEmpty

/-- Test of the suggested user equipment rule `^[A-Z]+-\d{3}[A-Z]?$`
(`patternManager.js`, `getPatternSuggestions`), used for the
deduplication example with the token `P-101`. -/
def matchUserEquipment (s : String) : Bool :=
  plusClass Char.isUpper s.toList (fun cs1 =>
    match cs1 with
    | '-' :: cs2 =>
      takeClass Char.isDigit 3 3 cs2 (fun cs3 =>
        optClass Char.isUpper cs3 List.isEmpty)
    | _ => false)

/-- An active classification rule as consumed by the classifier: the
compiled regex is modelled by its boolean test function. -/
structure PatInfo where
  test : String → Bool
  color : String
  description : String
  category : String

/-- The active pattern set of a freshly initialised `PatternManager`
(the four default rules, in declaration order). -/
def defaultActive : List (String × PatInfo) :=
  [("Line_number",
    ⟨matchLineNumber, "#FFFF00", "Line number format (e.g., 100-PS-1234-A1B2)", "line"⟩),
   ("Equipment_number",
    ⟨matchEquipmentNumber, "#008000", "Equipment number format (e.g., V28-E-0003)", "equipment"⟩),
   ("Instrument_number",
    ⟨matchInstrumentNumber, "#FF0000", "Instrument number format (e.g., 1234)", "instrument"⟩),
   ("Instrument_function",
    ⟨matchInstrumentFunction, "#0000FF", "Instrument function code (e.g., PT, TT, FT)", "instrument"⟩)]

/-- The fixed priority list of `PatternManager.findMatchingPattern`. -/
def priorityOrder : List String :=
  ["Line_number", "Equipment_number", "Instrument_number", "Instrument_function"]

/-- `activePatterns[name]` on the association-list model of the active
pattern object. -/
def lookupPattern (active : List (String × PatInfo)) (n : String) : Option PatInfo :=
  (active.find? (fun e => e.1 == n)).map (fun e => e.2)

/-- `PatternManager.findMatchingPattern`: the four priority names are
tried first in their fixed order, then the remaining active rules in
insertion order; the first matching rule is returned. -/
def findMatchingPattern (active : List (String × PatInfo)) (text : String) :
    Option (String × PatInfo) :=
  match priorityOrder.findSome? (fun n =>
      match lookupPattern active n with
      | some p => if p.test text then some (n, p) else none
      | none => none) with
  | some r => some r
  | none => active.find? (fun e => !(priorityOrder.contains e.1) && e.2.test text)

/-- `Math.max` on rationals, written so that it evaluates by kernel
reduction (the lattice `max` of `ℚ` does not). -/
def qmax (a b : ℚ) : ℚ := if a ≤ b then b else a

/-- `Math.abs` on rationals, written so that it evaluates by kernel
reduction. -/
def qabs (a : ℚ) : ℚ := if a < 0 then -a else a

/-- A positioned text item as supplied by the PDF text layer: top-left
corner `(x, y)` in top-down coordinates, size, and 1-based page. -/
structure Item where
  text : String
  x : ℚ
  y : ℚ
  width : ℚ
  height : ℚ
  page : Nat
deriving DecidableEq

/-- Horizontal midpoint `item.x + item.width / 2`. -/
def centerX (i : Item) : ℚ := i.x + i.width / 2

/-- Vertical midpoint `item.y + item.height / 2`. -/
def centerY (i : Item) : ℚ := i.y + i.height / 2

/-- Insert into a `≤`-sorted list of rationals. -/
def insertSorted (a : ℚ) : List ℚ → List ℚ
  | [] => [a]
  | b :: bs => if a ≤ b then a :: b :: bs else b :: insertSorted a bs

/-- Ascending sort, modelling `array.sort((a, b) => a - b)`.  On
rational values the ascending sorted list is unique, so the choice of
sorting algorithm is irrelevant. -/
def sortAsc (l : List ℚ) : List ℚ := l.foldr insertSorted []

/-- Provisional search height computed from the mean positive text
height: `Math.max(avgHeight * 5, 15.0)`, or the fallback default `25.0`
when no item has positive height (`adjustSearchParameters`, first
half). -/
def provisionalHeight (items : List Item) : ℚ :=
  let hs := (items.filter (fun i => decide (0 < i.height))).map (fun i => i.height)
  if hs.length = 0 then 25 else qmax ((hs.sum / (hs.length : ℚ)) * 5) 15

/-- The vertical distances collected over all same-page
(number, function) pairs lying within the generous proximity bound
(`adjustSearchParameters`, pair scan: `verticalDistance > 0 &&
verticalDistance < 80 && horizontalDistance < 100`). -/
def pairDistances (np fp : String → Bool) (items : List Item) : List ℚ :=
  let numbers := items.filter (fun i => np i.text)
  let functions := items.filter (fun i => fp i.text)
  numbers.flatMap (fun n =>
    functions.filterMap (fun f =>
      if f.page = n.page then
        let vd := qabs (n.y - f.y)
        let hd := qabs (centerX n - centerX f)
        if 0 < vd ∧ vd < 80 ∧ hd < 100 then some vd else none
      else none))

/-- `sorted[Math.floor(sorted.length * 0.75)]`: the code's 75th
percentile of a distance list. -/
def percentile75 (ds : List ℚ) : ℚ :=
  (sortAsc ds).getD (3 * ds.length / 4) 0

/-- The distance list `adjustSearchParameters` works with: the
optional pattern arguments model
`patterns['Instrument_number']?.pattern || <fallback regex literal>`
(the fallback literals coincide with the default rules). -/
def adjustDistances (numPat funPat : Option (String → Bool))
    (items : List Item) : List ℚ :=
  pairDistances (numPat.getD matchInstrumentNumber)
    (funPat.getD matchInstrumentFunction) items

/-- `InstrumentMatcher.adjustSearchParameters`: the search height stored
into `this.defaultSearchHeight`. -/
def adjustSearchParameters (numPat funPat : Option (String → Bool))
    (items : List Item) : ℚ :=
  let provisional := provisionalHeight items
  let ds := adjustDistances numPat funPat items
  if ds.length ≠ 0 then qmax (percentile75 ds * 1.3) (qmax provisional 20)
  else provisional

/-- Geometric part of the primary candidate window of
`findFunctionForInstrument`: the candidate's top edge lies in the
vertical band `[n.y - searchHeight, n.y + n.height + 3]` and its
horizontal midpoint within `max(n.width * 2.0, 20)` of the number's
midpoint. -/
def inPrimaryWindow (n : Item) (searchHeight : ℚ) (it : Item) : Bool :=
  let tol := qmax (n.width * 2.0) 20
  decide (n.y - searchHeight ≤ it.y ∧ it.y ≤ n.y + n.height + 3 ∧
    centerX n - tol ≤ centerX it ∧ centerX it ≤ centerX n + tol)

/-- The candidate filter of `findFunctionForInstrument`. -/
def candidatesFor (items : List Item) (n : Item) (fp : String → Bool)
    (searchHeight : ℚ) : List Item :=
  items.filter (fun it =>
    it.page == n.page && fp it.text && inPrimaryWindow n searchHeight it)

/-- Candidate score `horizontalDist * 0.5 + verticalDist * 2.0`, where
the vertical distance runs from the candidate's top edge to the number's
vertical midpoint. -/
def score (n f : Item) : ℚ :=
  qabs (centerX f - centerX n) * 0.5 + qabs (f.y - centerY n) * 2.0

/-- One step of the `reduce` keeping the lower-score candidate (the
earlier one on ties). -/
def pickCloser (n : Item) (c cur : Item) : Item :=
  if score n cur < score n c then cur else c

/-- The candidate list actually scored: the candidates strictly above
the number when any exist, otherwise all candidates. -/
def consideredFunctions (items : List Item) (n : Item) (fp : String → Bool)
    (sh : ℚ) : List Item :=
  let cands := candidatesFor items n fp sh
  let above := cands.filter (fun f => decide (f.y < n.y))
  if above.isEmpty then cands else above

/-- Squared centroid distance used by the fallback search.  The code
compares `Math.sqrt` of this quantity; the square root is strictly
monotone on nonnegative arguments, so every comparison is modelled on
the squares. -/
def sqDist (n f : Item) : ℚ :=
  (centerX f - centerX n) * (centerX f - centerX n) +
    (centerY f - centerY n) * (centerY f - centerY n)

/-- Page-wide fallback of `findFunctionForInstrument`: the nearest
function text by straight-line centroid distance, accepted only when
strictly within 100 points (`sqrt d < 100 ↔ d < 10000`). -/
def fallbackFunction (items : List Item) (n : Item) (fp : String → Bool) :
    Option String :=
  match items.filter (fun it => it.page == n.page && fp it.text) with
  | [] => none
  | x :: xs =>
    let nearest := xs.foldl (fun a b => if sqDist n b < sqDist n a then b else a) x
    if sqDist n nearest < 10000 then some nearest.text else none

/-- `InstrumentMatcher.findFunctionForInstrument`.  The final `[]`
branch is unreachable: `consideredFunctions` is nonempty whenever the
candidate list is (the JS `reduce` would likewise be called on a
nonempty array). -/
def findFunctionForInstrument (items : List Item) (n : Item) (fp : String → Bool)
    (sh : ℚ) : Option String :=
  if (candidatesFor items n fp sh).isEmpty then fallbackFunction items n fp
  else
    match consideredFunctions items n fp sh with
    | x :: xs => some ((xs.foldl (pickCloser n) x).text)
    | [] => none

/-- Geometric part of the narrower window used by
`findFunctionPosition`: vertical band
`[n.y - defaultSearchHeight, n.y + 2]`, horizontal half-width
`n.width * 1.5`. -/
def inPositionWindow (n : Item) (defaultH : ℚ) (it : Item) : Bool :=
  let tol := n.width * 1.5
  decide (n.y - defaultH ≤ it.y ∧ it.y ≤ n.y + 2 ∧
    centerX n - tol ≤ centerX it ∧ centerX it ≤ centerX n + tol)

/-- `InstrumentMatcher.findFunctionPosition`. -/
def findFunctionPosition (items : List Item) (functionText : String) (n : Item)
    (defaultH : ℚ) : Option Item :=
  items.find? (fun it =>
    it.page == n.page && it.text == functionText && inPositionWindow n defaultH it)

/-- The matcher's own function-code → description table
(`InstrumentMatcher.getInstrumentType`). -/
def matcherFunctionTypes : List (String × String) :=
  [("FT", "Flow Transmitter"), ("FI", "Flow Indicator"),
   ("FIC", "Flow Indicator Controller"), ("FIR", "Flow Indicator Recorder"),
   ("FV", "Flow Valve"), ("FCV", "Flow Control Valve"),
   ("TT", "Temperature Transmitter"), ("TI", "Temperature Indicator"),
   ("TIC", "Temperature Indicator Controller"), ("TIR", "Temperature Indicator Recorder"),
   ("TV", "Temperature Valve"), ("TCV", "Temperature Control Valve"),
   ("PT", "Pressure Transmitter"), ("PI", "Pressure Indicator"),
   ("PIC", "Pressure Indicator Controller"), ("PIR", "Pressure Indicator Recorder"),
   ("PV", "Pressure Valve"), ("PCV", "Pressure Control Valve"),
   ("PSV", "Pressure Safety Valve"),
   ("LT", "Level Transmitter"), ("LI", "Level Indicator"),
   ("LIC", "Level Indicator Controller"), ("LIR", "Level Indicator Recorder"),
   ("LV", "Level Valve"), ("LCV", "Level Control Valve"),
   ("AT", "Analytical Transmitter"), ("AI", "Analytical Indicator"),
   ("AIC", "Analytical Indicator Controller"), ("AIR", "Analytical Indicator Recorder"),
   ("AV", "Analytical Valve"), ("ACV", "Analytical Control Valve")]

/-- `InstrumentMatcher.getInstrumentType`.  The argument is the JS value
of `functionText` (`none` = `null`); JS falsiness of `''` is modelled
explicitly. -/
def getInstrumentType (functionText : Option String) : String :=
  match functionText with
  | none => "Instrument"
  | some s =>
    if s = "" then "Instrument"
    else
      match (matcherFunctionTypes.find? (fun e => e.1 == s)).map (fun e => e.2) with
      | some t => t
      | none => s ++ " Instrument"

/-- The position block copied from the number item onto the emitted
tag. -/
structure Rect where
  x : ℚ
  y : ℚ
  width : ℚ
  height : ℚ
  page : Nat
deriving DecidableEq

/-- The position block of an item. -/
def Item.rect (i : Item) : Rect := ⟨i.x, i.y, i.width, i.height, i.page⟩

/-- The instrument tag object built by `findInstrumentFunctions`.
String-or-null JS fields are `Option String` (`none` = `null`); the
`created` ISO timestamp is represented by the clock reading it is
derived from, and `id` interpolates the same reading. -/
structure InstTag where
  id : String
  name : String
  number : String
  function : Option String
  type : String
  category : String
  recognized : Bool
  numberPosition : Item
  functionPosition : Option Item
  patternName : String
  created : Nat
  position : Rect
deriving DecidableEq

/-- Construction of one instrument tag (body of the `forEach` in
`findInstrumentFunctions`; note `function: functionText || ''` and
`functionPosition: functionText ? findFunctionPosition(...) : null`). -/
def mkInstrumentTag (items : List Item) (fp : String → Bool) (height defaultH : ℚ)
    (now : Nat) (numItem : Item) : InstTag :=
  let functionText := findFunctionForInstrument items numItem fp height
  let combinedName :=
    match functionText with
    | some s => if s = "" then numItem.text else s ++ "-" ++ numItem.text
    | none => numItem.text
  { id := "instrument_" ++ numItem.text ++ "_" ++ toString now
    name := combinedName
    number := numItem.text
    function := some (functionText.getD "")
    type := getInstrumentType functionText
    category := "instrument"
    recognized := true
    numberPosition := numItem
    functionPosition :=
      match functionText with
      | some s => if s = "" then none else findFunctionPosition items s numItem defaultH
      | none => none
    patternName := "Instrument_number"
    created := now
    position := numItem.rect }

/-- `searchHeight || this.defaultSearchHeight` (JS: `0` is falsy). -/
def jsHeightOr (arg : Option ℚ) (dflt : ℚ) : ℚ :=
  match arg with
  | some h => if h = 0 then dflt else h
  | none => dflt

/-- `InstrumentMatcher.findInstrumentFunctions`.  The two pattern
arguments are `patterns['Instrument_number']` and
`patterns['Instrument_function']` as their test functions; when either
is absent the matcher recognises nothing. -/
def findInstrumentFunctions (items : List Item) (numPat funPat : Option (String → Bool))
    (searchHeight : Option ℚ) (now : Nat) : List InstTag :=
  let adjusted := adjustSearchParameters numPat funPat items
  let height := jsHeightOr searchHeight adjusted
  match numPat, funPat with
  | some np, some fp =>
    (items.filter (fun i => np i.text)).map (mkInstrumentTag items fp height adjusted now)
  | _, _ => []

/-- JavaScript `String.startsWith`, via character lists. -/
def strStartsWith (s p : String) : Bool := p.toList.isPrefixOf s.toList

/-- `TagManager.equipmentTypes`: the equipment prefix dictionary, in
insertion order. -/
def equipmentTypes : List (String × String) :=
  [("P-", "Pump"), ("T-", "Tank"), ("TK-", "Tank"), ("E-", "Heat Exchanger"),
   ("HX-", "Heat Exchanger"), ("V-", "Vessel"), ("VE-", "Vessel"),
   ("C-", "Compressor"), ("K-", "Compressor"), ("R-", "Reactor"), ("RX-", "Reactor"),
   ("F-", "Filter"), ("FL-", "Filter"), ("S-", "Separator"), ("SEP-", "Separator")]

/-- `TagManager.instrumentTypes`.  Its first 31 entries are literally
the same pairs as the matcher's own table; the manager's literal adds
four further codes. -/
def tagInstrumentTypes : List (String × String) :=
  matcherFunctionTypes ++
    [("MS", "Motor Starter"), ("MC", "Motor Controller"),
     ("HV", "Hand Valve"), ("CV", "Check Valve")]

/-- Capture group of the regex `^([A-Z]\x7b2,3\x7d)-` (greedy: three capitals before
a `-` are preferred over two). -/
def instrumentPrefix? (s : String) : Option String :=
  match s.toList with
  | a :: b :: c :: d :: _ =>
    if a.isUpper && b.isUpper && c.isUpper && d = '-' then some (String.mk [a, b, c])
    else if a.isUpper && b.isUpper && c = '-' then some (String.mk [a, b])
    else none
  | [a, b, c] =>
    if a.isUpper && b.isUpper && c = '-' then some (String.mk [a, b]) else none
  | _ => none

/-- `TagManager.getTagType`. -/
def getTagType (tagName category : String) : String :=
  if category == "equipment" then
    match equipmentTypes.find? (fun kv => strStartsWith tagName kv.1) with
    | some kv => kv.2
    | none => "Equipment"
  else if category == "instrument" then
    match instrumentPrefix? tagName with
    | some pre =>
      match (tagInstrumentTypes.find? (fun kv => kv.1 == pre)).map (fun kv => kv.2) with
      | some t => t
      | none => "Instrument"
    | none => "Instrument"
  else if category == "line" then "Process Line"
  else "Unknown"

/-- Capture of the regex `^(\d+)\"?-` in `parseLineTag`: a leading digit run
followed by an optional `"` and a `-`; the extracted size is the digits
plus a `"`. -/
def parseLineSize (s : String) : String :=
  let cs := s.toList
  let ds := cs.takeWhile Char.isDigit
  if ds.isEmpty then ""
  else
    match cs.drop ds.length with
    | '"' :: '-' :: _ => String.mk ds ++ "\""
    | '-' :: _ => String.mk ds ++ "\""
    | _ => ""

/-- Exactly `k` capital letters, a `-`, then three digits; returns the
captured letters (`serviceAt` helper). -/
def serviceLetters (k : Nat) (cs : List Char) : Option String :=
  let ls := cs.take k
  if ls.length = k ∧ ls.all Char.isUpper then
    match cs.drop k with
    | '-' :: d1 :: d2 :: d3 :: _ =>
      if d1.isDigit && d2.isDigit && d3.isDigit then some (String.mk ls) else none
    | _ => none
  else none

/-- One attempt of the regex `-([A-Z]\x7b1,3\x7d)-\d\x7b3\x7d` anchored at the current
position (greedy: longer letter groups first). -/
def serviceAt (cs : List Char) : Option String :=
  match cs with
  | '-' :: rest =>
    (serviceLetters 3 ('-' :: rest).tail).orElse (fun _ =>
      (serviceLetters 2 rest).orElse (fun _ => serviceLetters 1 rest))
  | _ => none

/-- Leftmost unanchored search for the service-code pattern. -/
def serviceSearch : List Char → Option String
  | [] => none
  | c :: rest =>
    match serviceAt (c :: rest) with
    | some r => some r
    | none => serviceSearch rest

/-- `TagManager.parseLineTag`: `(size, service)`, both defaulting to
the empty string when their pattern does not occur. -/
def parseLineTag (tagName : String) : String × String :=
  (parseLineSize tagName, (serviceSearch tagName.toList).getD "")

/-- A recognised equipment or line tag (`TagManager.createTagObject`).
Fields the code only adds for one category are `Option` (`none` = field
absent from the JS object); `created` is the clock reading, as for
instrument tags. -/
structure GenTag where
  id : String
  name : String
  type : String
  category : String
  recognized : Bool
  created : Nat
  patternName : String
  patternColor : String
  patternDescription : String
  spec : Option String
  size : Option String
  service : Option String
  position : Option Rect
deriving DecidableEq

/-- `TagManager.createTagObject`; in the recognition paths embedded
here it is always called with a match result. -/
def createTagObject (tagName category : String) (mr : String × PatInfo)
    (now : Nat) : GenTag :=
  { id := category ++ "_" ++ tagName ++ "_" ++ toString now
    name := tagName
    type := getTagType tagName category
    category := category
    recognized := true
    created := now
    patternName := mr.1
    patternColor := mr.2.color
    patternDescription := mr.2.description
    spec := if category == "equipment" then some "" else none
    size := if category == "line" then some (parseLineTag tagName).1 else none
    service := if category == "line" then some (parseLineTag tagName).2 else none
    position := none }

/-- `TagManager.createTagObjectWithPosition`. -/
def createTagObjectWithPosition (tagName category : String) (mr : String × PatInfo)
    (item : Item) (now : Nat) : GenTag :=
  { createTagObject tagName category mr now with position := some item.rect }

/-- Delimiter class of `extractTextTokens`: `/[\s\n\r\t,;.()[\]{}]+/`. -/
def tokenDelim (c : Char) : Bool :=
  jsSpace c || c = ',' || c = ';' || c = '.' || c = '(' || c = ')' ||
  c = '[' || c = ']' || c = '\x7b' || c = '\x7d'

/-- First-occurrence deduplication (`new Set` preserves insertion
order). -/
def dedupFirst (l : List String) : List String :=
  l.foldl (fun acc s => if acc.contains s then acc else acc ++ [s]) []

/-- Split a character list at delimiter characters (runs of delimiters
produce empty pieces, removed afterwards by the length filter). -/
def splitTokens : List Char → List Char → List String
  | [], acc => [String.mk acc.reverse]
  | c :: rest, acc =>
    if tokenDelim c then String.mk acc.reverse :: splitTokens rest []
    else splitTokens rest (c :: acc)

/-- `TagManager.extractTextTokens`: split on the delimiter class, drop
empty pieces, deduplicate keeping first occurrences.  (The `trim` the
code applies to each token is the identity here, since tokens contain
no whitespace characters: `\s` is part of the delimiter class.) -/
def extractTextTokens (text : String) : List String :=
  dedupFirst ((splitTokens text.toList []).filter (fun t => decide (0 < t.length)))

/-- The category-keyed result object of `recognizeTags`. -/
structure Recognized where
  equipment : List GenTag
  line : List GenTag
  instrument : List InstTag
deriving DecidableEq

/-- Processing of one positioned item in `recognizeTagsWithPositions`
(the equipment/line pass, with per-category name deduplication). -/
def classifyStep (active : List (String × PatInfo)) (now : Nat)
    (acc : Recognized) (it : Item) : Recognized :=
  match findMatchingPattern active it.text with
  | some mr =>
    let cat := mr.2.category
    if cat == "equipment" then
      let tag := createTagObjectWithPosition it.text cat mr it now
      if acc.equipment.any (fun t => t.name == tag.name) then acc
      else { acc with equipment := acc.equipment ++ [tag] }
    else if cat == "line" then
      let tag := createTagObjectWithPosition it.text cat mr it now
      if acc.line.any (fun t => t.name == tag.name) then acc
      else { acc with line := acc.line ++ [tag] }
    else acc
  | none => acc

/-- `TagManager.recognizeTagsWithPositions`. -/
def recognizeTagsWithPositions (active : List (String × PatInfo)) (items : List Item)
    (now : Nat) : Recognized :=
  let base := items.foldl (classifyStep active now) ⟨[], [], []⟩
  { base with
    instrument :=
      findInstrumentFunctions items
        ((lookupPattern active "Instrument_number").map (fun p => p.test))
        ((lookupPattern active "Instrument_function").map (fun p => p.test)) none now }

/-- Processing of one token in `recognizeTagsSimple` (equipment/line
only; instrument tokens are skipped in degraded mode). -/
def simpleStep (active : List (String × PatInfo)) (now : Nat)
    (acc : Recognized) (tok : String) : Recognized :=
  match findMatchingPattern active tok with
  | some mr =>
    let cat := mr.2.category
    if cat == "equipment" then
      let tag := createTagObject tok cat mr now
      if acc.equipment.any (fun t => t.name == tag.name) then acc
      else { acc with equipment := acc.equipment ++ [tag] }
    else if cat == "line" then
      let tag := createTagObject tok cat mr now
      if acc.line.any (fun t => t.name == tag.name) then acc
      else { acc with line := acc.line ++ [tag] }
    else acc
  | none => acc

/-- `TagManager.recognizeTagsSimple`. -/
def recognizeTagsSimple (active : List (String × PatInfo)) (textContent : String)
    (now : Nat) : Recognized :=
  (extractTextTokens textContent).foldl (simpleStep active now) ⟨[], [], []⟩

/-- `TagManager.recognizeTags`: positioned items (`some`) select the
position-based pass, `null` (`none`) the degraded token pass. -/
def recognizeTags (active : List (String × PatInfo)) (textContent : String)
    (items : Option (List Item)) (now : Nat) : Recognized :=
  match items with
  | some its => recognizeTagsWithPositions active its now
  | none => recognizeTagsSimple active textContent now

/-- A stored pattern rule (a `PatternManager` registry entry); the
fields the import path reads or writes. -/
structure StoredPattern where
  pattern : String
  color : String
  description : String
  category : String
  enabled : Bool
deriving DecidableEq

/-- A partial update for a default rule carried in a payload's
`defaultOverrides` section; `Object.assign` copies exactly the fields
present (`none` = field absent). -/
structure PatternPatch where
  pattern : Option String
  enabled : Option Bool
deriving DecidableEq

/-- The mutable registry state: default rules and user rules, as
name-keyed association lists in insertion order. -/
structure Registry where
  defaultPatterns : List (String × StoredPattern)
  userPatterns : List (String × StoredPattern)
deriving DecidableEq

/-- The freshly initialised registry (`this.defaultPatterns` literal,
no user rules). -/
def initialRegistry : Registry :=
  { defaultPatterns :=
      [("Line_number",
        ⟨"^.+-[A-Z\\d]\x7b1,4\x7d-\\s?\\d\x7b3,5\x7d-[A-Z\\d]\x7b3,7\x7d$", "#FFFF00",
         "Line number format (e.g., 100-PS-1234-A1B2)", "line", true⟩),
       ("Equipment_number",
        ⟨"^[A-Z\\d]+-[A-Z]\x7b1,2\x7d-\\d\x7b4\x7d$", "#008000",
         "Equipment number format (e.g., V28-E-0003)", "equipment", true⟩),
       ("Instrument_number",
        ⟨"^\\d\x7b4\x7d\\s?[A-Za-z0-9-]\x7b0,3\x7d$", "#FF0000",
         "Instrument number format (e.g., 1234)", "instrument", true⟩),
       ("Instrument_function",
        ⟨"^[A-Z]\x7b2,4\x7d$", "#0000FF",
         "Instrument function code (e.g., PT, TT, FT)", "instrument", true⟩)]
    userPatterns := [] }

/-- An import payload (`importPatterns(importData)`): both sections are
optional (`if (importData.userPatterns)` / `if (importData.defaultOverrides)`). -/
structure ImportData where
  userPatterns : Option (List (String × StoredPattern))
  defaultOverrides : Option (List (String × PatternPatch))
deriving DecidableEq

/-- `Object.assign(target, source)` on a name-keyed object: existing
keys are updated in place, new keys appended. -/
def objAssign (base adds : List (String × StoredPattern)) :
    List (String × StoredPattern) :=
  adds.foldl (fun acc kv =>
    if acc.any (fun e => e.1 == kv.1) then
      acc.map (fun e => if e.1 == kv.1 then kv else e)
    else acc ++ [kv]) base

/-- `Object.assign` of one `defaultOverrides` entry onto a stored
default rule. -/
def applyPatch (pat : StoredPattern) (p : PatternPatch) : StoredPattern :=
  { pat with
    pattern := p.pattern.getD pat.pattern
    enabled := p.enabled.getD pat.enabled }

/-- The `defaultOverrides` loop of `importPatterns`: only names already
present among the default rules are touched; no validation of any
kind is performed here. -/
def applyOverrides (st : Registry) (ovs : List (String × PatternPatch)) : Registry :=
  ovs.foldl (fun acc kv =>
    { acc with
      defaultPatterns := acc.defaultPatterns.map (fun e =>
        if e.1 == kv.1 then (e.1, applyPatch e.2 kv.2) else e) }) st

/-- The validation loop of `importPatterns`: the name of the first user
pattern in the payload whose regex fails to compile.  `valid` is the
compilability oracle of `new RegExp` (regex compilation itself is
external to this model). -/
def firstInvalid (valid : String → Bool) :
    List (String × StoredPattern) → Option String
  | [] => none
  | (n, p) :: rest => if valid p.pattern then firstInvalid valid rest else some n

/-- The mutation phase of `importPatterns`, reached only after the
validation loop has passed: `Object.assign` of the user patterns, then
the unvalidated default overrides. -/
def importMutate (st : Registry) (ovs : Option (List (String × PatternPatch)))
    (ups : List (String × StoredPattern)) : Registry :=
  let st1 := { st with userPatterns := objAssign st.userPatterns ups }
  match ovs with
  | some l => applyOverrides st1 l
  | none => st1

/-- `PatternManager.importPatterns` as a state transformer, returning
the post-call registry together with the thrown error if any.  The
JS method mutates `this` in program order; the validation loop precedes
every mutation, so the throwing branch returns the unchanged state,
exactly as the code does. -/
def importPatterns (valid : String → Bool) (st : Registry) (d : ImportData) :
    Registry × Option String :=
  match d.userPatterns with
  | some ups =>
    match firstInvalid valid ups with
    | some n => (st, some ("Invalid pattern " ++ n))
    | none => (importMutate st d.defaultOverrides ups, none)
  | none =>
    (match d.defaultOverrides with
     | some ovs => applyOverrides st ovs
     | none => st, none)

/-- Erasure of the two wall-clock-derived fields of an equipment/line
tag. -/
def stripGen (t : GenTag) : GenTag := { t with id := "", created := 0 }

/-- Erasure of the two wall-clock-derived fields of an instrument
tag. -/
def stripInst (t : InstTag) : InstTag := { t with id := "", created := 0 }

/-- Erasure of the wall-clock-derived fields of a whole recognition
result. -/
def stripClock (r : Recognized) : Recognized :=
  ⟨r.equipment.map stripGen, r.line.map stripGen, r.instrument.map stripInst⟩

/-- The pair-distance collection exactly as claim C3's sentence
describes it (spec-side model, for comparison with `pairDistances`):
pairs whose vertical distance is below 80 and horizontal centroid
distance below 100 — with no strict-positivity requirement on the
vertical distance. -/
def claimPairDistances (np fp : String → Bool) (items : List Item) : List ℚ :=
  let numbers := items.filter (fun i => np i.text)
  let functions := items.filter (fun i => fp i.text)
  numbers.flatMap (fun n =>
    functions.filterMap (fun f =>
      if f.page = n.page then
        let vd := qabs (n.y - f.y)
        let hd := qabs (centerX n - centerX f)
        if vd < 80 ∧ hd < 100 then some vd else none
      else none))

/-- The search-height computation exactly as claim C3's sentence
describes it (spec-side model). -/
def claimSearchHeightC3 (numPat funPat : Option (String → Bool))
    (items : List Item) : ℚ :=
  let provisional := provisionalHeight items
  let np := numPat.getD matchInstrumentNumber
  let fp := funPat.getD matchInstrumentFunction
  let ds := claimPairDistances np fp items
  if ds.length ≠ 0 then qmax (percentile75 ds * 1.3) (qmax provisional 20)
  else provisional

/-- The equipment type as claim C9's sentence describes it (spec-side
model): the value of the longest dictionary prefix of the name,
`Equipment` when no prefix applies. -/
def longestPrefixType (tagName : String) : String :=
  match (equipmentTypes.filter (fun kv => strStartsWith tagName kv.1)).foldl
      (fun best kv =>
        match best with
        | some b => if b.1.length < kv.1.length then some kv else some b
        | none => some kv) none with
  | some kv => kv.2
  | none => "Equipment"

/-- The active rule list in the order claim C5's sentence describes
(spec-side model): the four built-in names first in their fixed order
when present, then all remaining rules in insertion order. -/
def reorderedActive (active : List (String × PatInfo)) : List (String × PatInfo) :=
  priorityOrder.filterMap (fun n => (lookupPattern active n).map (fun p => (n, p))) ++
    active.filter (fun e => !(priorityOrder.contains e.1))

/-- One step of a key-minimising JS `reduce` (strict comparison, so
earlier elements win ties); `pickCloser n` is `minStep (score n)` and
the fallback reduction step is `minStep (sqDist n)`. -/
def minStep {α : Type} (key : α → ℚ) (a b : α) : α := if key b < key a then b else a

/-- The category the active rules assign to a text (the classification
outcome `findMatchingPattern` reports). -/
def categoryOf (active : List (String × PatInfo)) (t : String) : Option String :=
  (findMatchingPattern active t).map (fun mr => mr.2.category)

theorem qmax_eq_max (a b : ℚ) : qmax a b = max a b := by
  unfold qmax
  split
  · exact (max_eq_right (by assumption)).symm
  · exact (max_eq_left (le_of_not_le (by assumption))).symm

theorem qabs_eq_abs (a : ℚ) : qabs a = |a| := by
  unfold qabs
  split
  · exact (abs_of_neg (by assumption)).symm
  · exact (abs_of_nonneg (le_of_not_lt (by assumption))).symm

example : matchLineNumber "100-PS-1234-A1B2" = true := by decide
example : matchLineNumber "V28-E-0003" = false := by decide
example : matchEquipmentNumber "V28-E-0003" = true := by decide
example : matchEquipmentNumber "P-101" = false := by decide
example : matchInstrumentNumber "1234" = true := by decide
example : matchInstrumentNumber "1234 A-1" = true := by decide
example : matchInstrumentFunction "PT" = true := by decide
example : matchInstrumentFunction "pt" = false := by decide
example : matchUserEquipment "P-101" = true := by decide

example :
    adjustSearchParameters (some matchInstrumentNumber) (some matchInstrumentFunction)
      [⟨"1234", 100, 200, 10, 8, 1⟩, ⟨"PT", 98, 186, 14, 8, 1⟩] = 40 := by
  with_unfolding_all decide

example :
    (findInstrumentFunctions [⟨"1234", 100, 200, 10, 8, 1⟩, ⟨"PT", 98, 186, 14, 8, 1⟩]
      (some matchInstrumentNumber) (some matchInstrumentFunction) none 0).map
        (fun t => (t.name, t.function)) = [("PT-1234", some "PT")] := by
  with_unfolding_all decide

/-- C1: for every instrument-number item N and positioned text item F,
the spatial matcher treats F as a candidate function code for N iff F is
on N's page, F's text matches the function rule, F's top lies in the
vertical band `[N.y - searchHeight, N.y + N.height + 3]`, and F's
horizontal midpoint lies within `max(2.0 * N.width, 20)` of N's
horizontal midpoint; in particular, for the number item `1234` at
`(100, 200)` sized `10 × 8` and the function item `PT` at `(98, 186)`
sized `14 × 8` on the same page, `PT` is a candidate and the emitted tag
has name `PT-1234` and function `PT`. -/
theorem candidate_window_spec :
    (∀ (items : List Item) (n : Item) (fp : String → Bool) (sh : ℚ) (f : Item),
      f ∈ candidatesFor items n fp sh ↔
        (f ∈ items ∧ f.page = n.page ∧ fp f.text = true ∧
          n.y - sh ≤ f.y ∧ f.y ≤ n.y + n.height + 3 ∧
          |centerX f - centerX n| ≤ max (n.width * 2.0) 20)) ∧
    ((⟨"PT", 98, 186, 14, 8, 1⟩ : Item) ∈
      candidatesFor [⟨"1234", 100, 200, 10, 8, 1⟩, ⟨"PT", 98, 186, 14, 8, 1⟩]
        ⟨"1234", 100, 200, 10, 8, 1⟩ matchInstrumentFunction 40) ∧
    (findInstrumentFunctions [⟨"1234", 100, 200, 10, 8, 1⟩, ⟨"PT", 98, 186, 14, 8, 1⟩]
        (some matchInstrumentNumber) (some matchInstrumentFunction) none 0).map
        (fun t => (t.name, t.function)) = [("PT-1234", some "PT")] := by
  refine ⟨?_, by with_unfolding_all decide, by with_unfolding_all decide⟩
  intro items n fp sh f
  unfold candidatesFor inPrimaryWindow
  rw [List.mem_filter]
  simp only [Bool.and_eq_true, beq_iff_eq, decide_eq_true_eq, qmax_eq_max]
  constructor
  · rintro ⟨hmem, ⟨⟨hpage, htest⟩, h1, h2, h3, h4⟩⟩
    refine ⟨hmem, hpage, htest, h1, h2, ?_⟩
    rw [abs_le]
    constructor <;> linarith
  · rintro ⟨hmem, hpage, htest, h1, h2, habs⟩
    rw [abs_le] at habs
    exact ⟨hmem, ⟨hpage, htest⟩, h1, h2, by linarith [habs.1], by linarith [habs.2]⟩

/-- C10: the `functionPosition` field is recomputed by a second search
whose window (vertical range `[N.y - searchHeight, N.y + 2]`, horizontal
half-width `1.5 * N.width`) is strictly narrower than the candidate
window used to select the function, so there are inputs — in particular
a function found only by the page-wide fallback — whose emitted tag has
a non-empty function while `functionPosition` is null. -/
theorem position_window_narrower :
    (∀ (n : Item) (dh : ℚ) (it : Item), 0 ≤ n.width → 0 ≤ n.height →
      (it.page = n.page → inPositionWindow n dh it = true → inPrimaryWindow n dh it = true) ∧
      n.y + 2 < n.y + n.height + 3 ∧
      n.width * 1.5 < max (n.width * 2.0) 20) ∧
    ((findInstrumentFunctions [⟨"1234", 0, 0, 10, 8, 1⟩, ⟨"PT", 0, 50, 10, 8, 1⟩]
        (some matchInstrumentNumber) (some matchInstrumentFunction) none 0).map
        (fun t => (t.function, t.functionPosition)) = [(some "PT", none)]) := by
  constructor
  · intro n dh it hw hh
    refine ⟨?_, by linarith, ?_⟩
    · intro _ hpos
      unfold inPositionWindow at hpos
      unfold inPrimaryWindow
      rw [decide_eq_true_eq] at hpos ⊢
      obtain ⟨p1, p2, p3, p4⟩ := hpos
      have htol : n.width * 1.5 ≤ qmax (n.width * 2.0) 20 := by
        rw [qmax_eq_max]
        rcases le_total (n.width * 2.0) 20 with h | h
        · calc n.width * 1.5 ≤ n.width * 2.0 := by nlinarith
            _ ≤ max (n.width * 2.0) 20 := le_max_left _ _
        · calc n.width * 1.5 ≤ n.width * 2.0 := by nlinarith
            _ ≤ max (n.width * 2.0) 20 := le_max_left _ _
      exact ⟨p1, by linarith, by linarith, by linarith⟩
    · rcases eq_or_lt_of_le hw with h | h
      · rw [← h]
        have hm : max ((0 : ℚ) * 2.0) 20 = 20 := max_eq_right (by norm_num)
        rw [hm]
        norm_num
      · calc n.width * 1.5 < n.width * 2.0 := by nlinarith
          _ ≤ max (n.width * 2.0) 20 := le_max_left _ _
  · with_unfolding_all decide

/-- Witness for `position_window_narrower`, instantiated at the number
item of the fallback example and a nearby candidate. -/
theorem position_window_narrower_witness :
    ((⟨"PT", 0, 5, 10, 8, 1⟩ : Item).page = (⟨"1234", 0, 0, 10, 8, 1⟩ : Item).page →
      inPositionWindow ⟨"1234", 0, 0, 10, 8, 1⟩ 40 ⟨"PT", 0, 5, 10, 8, 1⟩ = true →
      inPrimaryWindow ⟨"1234", 0, 0, 10, 8, 1⟩ 40 ⟨"PT", 0, 5, 10, 8, 1⟩ = true) ∧
    (⟨"1234", 0, 0, 10, 8, 1⟩ : Item).y + 2 <
      (⟨"1234", 0, 0, 10, 8, 1⟩ : Item).y + (⟨"1234", 0, 0, 10, 8, 1⟩ : Item).height + 3 ∧
    (⟨"1234", 0, 0, 10, 8, 1⟩ : Item).width * 1.5 <
      max ((⟨"1234", 0, 0, 10, 8, 1⟩ : Item).width * 2.0) 20 :=
  position_window_narrower.1 ⟨"1234", 0, 0, 10, 8, 1⟩ 40 ⟨"PT", 0, 5, 10, 8, 1⟩
    (by norm_num) (by norm_num)

/-- C3 (as amended): the search height is the provisional
`max(5 × mean positive height, 15)` (or `25` with no positive heights)
when the calibration pair scan collects nothing, and otherwise
`max(1.3 × p75, provisional, 20)` over the collected distances — the
scan keeping only pairs with *strictly positive* vertical distance
below 80 and horizontal centroid distance below 100; and raising the
75th-percentile distance (other inputs equal) never decreases the
height. -/
theorem adaptive_search_height :
    (∀ (np fp : Option (String → Bool)) (items : List Item),
      (adjustDistances np fp items = [] →
        adjustSearchParameters np fp items = provisionalHeight items) ∧
      (adjustDistances np fp items ≠ [] →
        adjustSearchParameters np fp items =
          max (percentile75 (adjustDistances np fp items) * 1.3)
            (max (provisionalHeight items) 20))) ∧
    (∀ (np fp : Option (String → Bool)) (items items' : List Item),
      adjustDistances np fp items ≠ [] → adjustDistances np fp items' ≠ [] →
      provisionalHeight items = provisionalHeight items' →
      percentile75 (adjustDistances np fp items) ≤
        percentile75 (adjustDistances np fp items') →
      adjustSearchParameters np fp items ≤ adjustSearchParameters np fp items') := by
  have hform : ∀ (np fp : Option (String → Bool)) (items : List Item),
      (adjustDistances np fp items = [] →
        adjustSearchParameters np fp items = provisionalHeight items) ∧
      (adjustDistances np fp items ≠ [] →
        adjustSearchParameters np fp items =
          max (percentile75 (adjustDistances np fp items) * 1.3)
            (max (provisionalHeight items) 20)) := by
    intro np fp items
    constructor
    · intro h
      unfold adjustSearchParameters
      rw [h]
      simp
    · intro h
      unfold adjustSearchParameters
      rw [if_pos (by simpa [List.length_eq_zero] using h)]
      rw [qmax_eq_max, qmax_eq_max]
  refine ⟨hform, ?_⟩
  intro np fp items items' h1 h2 hprov hp75
  rw [(hform np fp items).2 h1, (hform np fp items').2 h2, hprov]
  exact max_le_max (by nlinarith) le_rfl

/-- Witness for `adaptive_search_height`: on a concrete document the
height follows the percentile formula, and two concrete documents with
equal provisional heights and 75th-percentile pair distances 10 and 20
give monotone search heights. -/
theorem adaptive_search_height_witness :
    (adjustSearchParameters (some matchInstrumentNumber) (some matchInstrumentFunction)
      [⟨"1234", 0, 0, 10, 5, 1⟩, ⟨"PT", 0, 10, 10, 5, 1⟩] =
      max (percentile75 (adjustDistances (some matchInstrumentNumber)
            (some matchInstrumentFunction)
            [⟨"1234", 0, 0, 10, 5, 1⟩, ⟨"PT", 0, 10, 10, 5, 1⟩]) * 1.3)
        (max (provisionalHeight [⟨"1234", 0, 0, 10, 5, 1⟩, ⟨"PT", 0, 10, 10, 5, 1⟩]) 20)) ∧
    adjustSearchParameters (some matchInstrumentNumber) (some matchInstrumentFunction)
      [⟨"1234", 0, 0, 10, 5, 1⟩, ⟨"PT", 0, 10, 10, 5, 1⟩] ≤
    adjustSearchParameters (some matchInstrumentNumber) (some matchInstrumentFunction)
      [⟨"1234", 0, 0, 10, 5, 1⟩, ⟨"PT", 0, 20, 10, 5, 1⟩] :=
  ⟨(adaptive_search_height.1 (some matchInstrumentNumber) (some matchInstrumentFunction)
      [⟨"1234", 0, 0, 10, 5, 1⟩, ⟨"PT", 0, 10, 10, 5, 1⟩]).2
      (by with_unfolding_all decide),
   adaptive_search_height.2 (some matchInstrumentNumber) (some matchInstrumentFunction)
    [⟨"1234", 0, 0, 10, 5, 1⟩, ⟨"PT", 0, 10, 10, 5, 1⟩]
    [⟨"1234", 0, 0, 10, 5, 1⟩, ⟨"PT", 0, 20, 10, 5, 1⟩]
    (by with_unfolding_all decide) (by with_unfolding_all decide)
    (by with_unfolding_all decide) (by with_unfolding_all decide)⟩

/-- Counterexample to C3 as stated: on a document whose only
number/function pair sits at vertical distance exactly 0 (and mean
positive height 3), the code excludes the pair (`verticalDistance > 0`)
and keeps the provisional height 15, while the claim's described
computation includes it and produces `max(1.3 × 0, 15, 20) = 20`. -/
theorem search_height_zero_distance_pair :
    adjustSearchParameters (some matchInstrumentNumber) (some matchInstrumentFunction)
      [⟨"1234", 0, 50, 10, 3, 1⟩, ⟨"PT", 0, 50, 10, 3, 1⟩] = 15 ∧
    claimSearchHeightC3 (some matchInstrumentNumber) (some matchInstrumentFunction)
      [⟨"1234", 0, 50, 10, 3, 1⟩, ⟨"PT", 0, 50, 10, 3, 1⟩] = 20 ∧
    (15 : ℚ) ≠ 20 := by
  refine ⟨?_, ?_, by norm_num⟩ <;> with_unfolding_all decide

theorem foldl_minStep_first {α : Type} (key : α → ℚ) :
    ∀ (xs : List α) (x : α),
      ∃ l1 l2, x :: xs = l1 ++ (xs.foldl (minStep key) x) :: l2 ∧
        (∀ y ∈ x :: xs, key (xs.foldl (minStep key) x) ≤ key y) ∧
        (∀ y ∈ l1, key (xs.foldl (minStep key) x) < key y) := by
  intro xs
  induction xs with
  | nil =>
    intro x
    refine ⟨[], [], rfl, ?_, by simp⟩
    intro y hy
    simp only [List.foldl_nil]
    rcases List.mem_singleton.mp hy with rfl
    exact le_refl _
  | cons y ys ih =>
    intro x
    rw [List.foldl_cons]
    rcases ih (minStep key x y) with ⟨l1, l2, heq, hmin, hstrict⟩
    by_cases hlt : key y < key x
    · have hstep : minStep key x y = y := by simp [minStep, hlt]
      rw [hstep] at heq hmin hstrict ⊢
      refine ⟨x :: l1, l2, ?_, ?_, ?_⟩
      · rw [List.cons_append, ← heq]
      · intro z hz
        rcases List.mem_cons.mp hz with rfl | hz'
        · exact le_of_lt (lt_of_le_of_lt (hmin y (List.mem_cons_self y ys)) hlt)
        · exact hmin z hz'
      · intro z hz
        rcases List.mem_cons.mp hz with rfl | hz'
        · exact lt_of_le_of_lt (hmin y (List.mem_cons_self y ys)) hlt
        · exact hstrict z hz'
    · have hstep : minStep key x y = x := by simp [minStep, hlt]
      rw [hstep] at heq hmin hstrict ⊢
      have hxy : key x ≤ key y := le_of_not_lt hlt
      rcases l1 with _ | ⟨a, t⟩
      · simp only [List.nil_append] at heq
        have hr : ys.foldl (minStep key) x = x := (List.cons.injEq _ _ _ _ ▸ heq).1.symm
        refine ⟨[], y :: ys, ?_, ?_, by simp⟩
        · rw [List.nil_append, hr]
        · intro z hz
          rcases List.mem_cons.mp hz with rfl | hz'
          · exact hmin z (List.mem_cons_self z ys)
          · rcases List.mem_cons.mp hz' with rfl | hz''
            · exact le_trans (hmin x (List.mem_cons_self x ys)) hxy
            · exact hmin z (List.mem_cons_of_mem x hz'')
      · have ha : a = x := (List.cons.injEq _ _ _ _ ▸ heq).1.symm
        have hys : ys = t ++ ys.foldl (minStep key) x :: l2 :=
          (List.cons.injEq _ _ _ _ ▸ heq).2
        subst ha
        refine ⟨a :: y :: t, l2, ?_, ?_, ?_⟩
        · rw [List.cons_append, List.cons_append, ← hys]
        · intro z hz
          rcases List.mem_cons.mp hz with rfl | hz'
          · exact hmin z (List.mem_cons_self z ys)
          · rcases List.mem_cons.mp hz' with rfl | hz''
            · exact le_trans (hmin a (List.mem_cons_self a ys)) hxy
            · exact hmin z (List.mem_cons_of_mem a hz'')
        · have hax : key (ys.foldl (minStep key) a) < key a :=
            hstrict a (List.mem_cons_self a t)
          intro z hz
          rcases List.mem_cons.mp hz with rfl | hz'
          · exact hax
          · rcases List.mem_cons.mp hz' with rfl | hz''
            · exact lt_of_lt_of_le hax hxy
            · exact hstrict z (List.mem_cons_of_mem a hz'')

/-- C2: for every instrument number with a nonempty candidate set, the
matcher restricts to candidates strictly above the number when any
exist (else keeps all), scores each as
`0.5 × |horizontal midpoint offset| + 2.0 × |F.y − N's vertical
midpoint|`, and selects the earliest candidate of minimal score;
of two candidates both 10 units off horizontally, one 5 and one 25
units above, the 5-unit-above one is selected. -/
theorem scoring_selection :
    (∀ n f : Item,
      score n f = |centerX f - centerX n| * 0.5 + |f.y - centerY n| * 2.0) ∧
    (∀ (items : List Item) (n : Item) (fp : String → Bool) (sh : ℚ),
      candidatesFor items n fp sh ≠ [] →
      (consideredFunctions items n fp sh =
        if (candidatesFor items n fp sh).filter (fun f => decide (f.y < n.y)) = []
        then candidatesFor items n fp sh
        else (candidatesFor items n fp sh).filter (fun f => decide (f.y < n.y))) ∧
      ∃ sel l1 l2,
        findFunctionForInstrument items n fp sh = some sel.text ∧
        consideredFunctions items n fp sh = l1 ++ sel :: l2 ∧
        (∀ g ∈ consideredFunctions items n fp sh, score n sel ≤ score n g) ∧
        (∀ g ∈ l1, score n sel < score n g)) ∧
    findFunctionForInstrument
      [⟨"1234", 100, 200, 10, 8, 1⟩, ⟨"PT", 110, 195, 10, 8, 1⟩,
       ⟨"TT", 110, 175, 10, 8, 1⟩]
      ⟨"1234", 100, 200, 10, 8, 1⟩ matchInstrumentFunction 40 = some "PT" := by
  refine ⟨?_, ?_, by with_unfolding_all decide⟩
  · intro n f
    unfold score
    rw [qabs_eq_abs, qabs_eq_abs]
  · intro items n fp sh hne
    have hconsider : consideredFunctions items n fp sh =
        if (candidatesFor items n fp sh).filter (fun f => decide (f.y < n.y)) = []
        then candidatesFor items n fp sh
        else (candidatesFor items n fp sh).filter (fun f => decide (f.y < n.y)) := by
      unfold consideredFunctions
      by_cases h : (candidatesFor items n fp sh).filter (fun f => decide (f.y < n.y)) = []
      · simp [h]
      · simp [h, List.isEmpty_iff]
    refine ⟨hconsider, ?_⟩
    have hcne : consideredFunctions items n fp sh ≠ [] := by
      rw [hconsider]
      by_cases h : (candidatesFor items n fp sh).filter (fun f => decide (f.y < n.y)) = []
      · rw [if_pos h]; exact hne
      · rw [if_neg h]; exact h
    have hif : findFunctionForInstrument items n fp sh =
        match consideredFunctions items n fp sh with
        | x :: xs => some ((xs.foldl (pickCloser n) x).text)
        | [] => none := by
      unfold findFunctionForInstrument
      rw [if_neg (by simp [List.isEmpty_iff, hne])]
    rcases hc : consideredFunctions items n fp sh with _ | ⟨x, xs⟩
    · exact absurd hc hcne
    · have hpick : pickCloser n = minStep (score n) := rfl
      rcases foldl_minStep_first (score n) xs x with ⟨l1, l2, heq, hmin, hstrict⟩
      refine ⟨xs.foldl (minStep (score n)) x, l1, l2, ?_, ?_, ?_, ?_⟩
      · rw [hif, hc, hpick]
      · exact heq
      · intro g hg
        exact hmin g hg
      · exact hstrict
/-- Witness for `scoring_selection` at the claim's two-candidate
example (score 23 for the 5-above candidate, 63 for the 25-above
one). -/
theorem scoring_selection_witness :
    ∃ sel l1 l2,
      findFunctionForInstrument
        [⟨"1234", 100, 200, 10, 8, 1⟩, ⟨"PT", 110, 195, 10, 8, 1⟩,
         ⟨"TT", 110, 175, 10, 8, 1⟩]
        ⟨"1234", 100, 200, 10, 8, 1⟩ matchInstrumentFunction 40 = some sel.text ∧
      consideredFunctions
        [⟨"1234", 100, 200, 10, 8, 1⟩, ⟨"PT", 110, 195, 10, 8, 1⟩,
         ⟨"TT", 110, 175, 10, 8, 1⟩]
        ⟨"1234", 100, 200, 10, 8, 1⟩ matchInstrumentFunction 40 = l1 ++ sel :: l2 ∧
      (∀ g ∈ consideredFunctions
        [⟨"1234", 100, 200, 10, 8, 1⟩, ⟨"PT", 110, 195, 10, 8, 1⟩,
         ⟨"TT", 110, 175, 10, 8, 1⟩]
        ⟨"1234", 100, 200, 10, 8, 1⟩ matchInstrumentFunction 40,
        score ⟨"1234", 100, 200, 10, 8, 1⟩ sel ≤ score ⟨"1234", 100, 200, 10, 8, 1⟩ g) ∧
      (∀ g ∈ l1, score ⟨"1234", 100, 200, 10, 8, 1⟩ sel < score ⟨"1234", 100, 200, 10, 8, 1⟩ g) :=
  (scoring_selection.2.1
    [⟨"1234", 100, 200, 10, 8, 1⟩, ⟨"PT", 110, 195, 10, 8, 1⟩,
     ⟨"TT", 110, 175, 10, 8, 1⟩]
    ⟨"1234", 100, 200, 10, 8, 1⟩ matchInstrumentFunction 40
    (by with_unfolding_all decide)).2

/-- C4 (as amended): when the primary window holds no candidate, the
matcher falls back to the page-wide function item nearest by Euclidean
centroid distance, pairing it with the number only when that distance
is strictly below 100 (`sqrt d < 100 ↔ d < 10000`); when no function
item is on the page, or the nearest is not strictly within 100, the
emitted tag carries the bare number as its name and its `function`
field is the *empty string* (the JS value of `functionText || ''`),
not null. -/
theorem fallback_nearest :
    ∀ (items : List Item) (n : Item) (fp : String → Bool) (sh : ℚ),
      candidatesFor items n fp sh = [] →
      (findFunctionForInstrument items n fp sh = fallbackFunction items n fp) ∧
      (items.filter (fun it => it.page == n.page && fp it.text) = [] →
        fallbackFunction items n fp = none) ∧
      (∀ x xs, items.filter (fun it => it.page == n.page && fp it.text) = x :: xs →
        ∃ nr, nr ∈ x :: xs ∧
          (∀ g ∈ x :: xs, sqDist n nr ≤ sqDist n g) ∧
          (sqDist n nr < 10000 → fallbackFunction items n fp = some nr.text) ∧
          (10000 ≤ sqDist n nr → fallbackFunction items n fp = none)) ∧
      (∀ (dh : ℚ) (now : Nat), findFunctionForInstrument items n fp sh = none →
        (mkInstrumentTag items fp sh dh now n).name = n.text ∧
        (mkInstrumentTag items fp sh dh now n).function = some "") := by
  intro items n fp sh hempty
  have h1 : findFunctionForInstrument items n fp sh = fallbackFunction items n fp := by
    unfold findFunctionForInstrument
    rw [if_pos (by simp [hempty])]
  refine ⟨h1, ?_, ?_, ?_⟩
  · intro h
    unfold fallbackFunction
    rw [h]
  · intro x xs hfil
    unfold fallbackFunction
    rw [hfil]
    rcases foldl_minStep_first (sqDist n) xs x with ⟨l1, l2, heq, hmin, hstrict⟩
    refine ⟨xs.foldl (minStep (sqDist n)) x, ?_, ?_, ?_, ?_⟩
    · rw [heq]
      exact List.mem_append_right _ (List.mem_cons_self _ _)
    · intro g hg
      exact hmin g hg
    · intro hlt
      show (if sqDist n (xs.foldl (minStep (sqDist n)) x) < 10000
            then some (xs.foldl (minStep (sqDist n)) x).text else none) =
          some (xs.foldl (minStep (sqDist n)) x).text
      rw [if_pos hlt]
    · intro hge
      show (if sqDist n (xs.foldl (minStep (sqDist n)) x) < 10000
            then some (xs.foldl (minStep (sqDist n)) x).text else none) = none
      rw [if_neg (not_lt.mpr hge)]
  · intro dh now h
    constructor <;> simp [mkInstrumentTag, h]

/-- Witness for `fallback_nearest`: a lone number item yields no
candidate, an empty fallback and a tag with the bare number and an
empty-string function; and with a page-wide function item 50 points
below the number, the nearest-neighbour branch picks it up. -/
theorem fallback_nearest_witness :
    (findFunctionForInstrument [⟨"1234", 0, 0, 10, 8, 1⟩] ⟨"1234", 0, 0, 10, 8, 1⟩
        matchInstrumentFunction 40 =
      fallbackFunction [⟨"1234", 0, 0, 10, 8, 1⟩] ⟨"1234", 0, 0, 10, 8, 1⟩
        matchInstrumentFunction ∧
    fallbackFunction [⟨"1234", 0, 0, 10, 8, 1⟩] ⟨"1234", 0, 0, 10, 8, 1⟩
        matchInstrumentFunction = none ∧
    (mkInstrumentTag [⟨"1234", 0, 0, 10, 8, 1⟩] matchInstrumentFunction 40 40 0
        ⟨"1234", 0, 0, 10, 8, 1⟩).name = "1234" ∧
    (mkInstrumentTag [⟨"1234", 0, 0, 10, 8, 1⟩] matchInstrumentFunction 40 40 0
        ⟨"1234", 0, 0, 10, 8, 1⟩).function = some "") ∧
    (∃ nr, nr ∈ [(⟨"PT", 0, 50, 10, 8, 1⟩ : Item)] ∧
      (∀ g ∈ [(⟨"PT", 0, 50, 10, 8, 1⟩ : Item)],
        sqDist ⟨"1234", 0, 0, 10, 8, 1⟩ nr ≤ sqDist ⟨"1234", 0, 0, 10, 8, 1⟩ g) ∧
      (sqDist ⟨"1234", 0, 0, 10, 8, 1⟩ nr < 10000 →
        fallbackFunction [⟨"1234", 0, 0, 10, 8, 1⟩, ⟨"PT", 0, 50, 10, 8, 1⟩]
          ⟨"1234", 0, 0, 10, 8, 1⟩ matchInstrumentFunction = some nr.text) ∧
      (10000 ≤ sqDist ⟨"1234", 0, 0, 10, 8, 1⟩ nr →
        fallbackFunction [⟨"1234", 0, 0, 10, 8, 1⟩, ⟨"PT", 0, 50, 10, 8, 1⟩]
          ⟨"1234", 0, 0, 10, 8, 1⟩ matchInstrumentFunction = none)) := by
  constructor
  · have h := fallback_nearest [⟨"1234", 0, 0, 10, 8, 1⟩] ⟨"1234", 0, 0, 10, 8, 1⟩
      matchInstrumentFunction 40 (by with_unfolding_all decide)
    have h2 := h.2.1 (by with_unfolding_all decide)
    have h4 := h.2.2.2 40 0 (by rw [h.1, h2])
    exact ⟨h.1, h2, h4.1, h4.2⟩
  · exact (fallback_nearest [⟨"1234", 0, 0, 10, 8, 1⟩, ⟨"PT", 0, 50, 10, 8, 1⟩]
        ⟨"1234", 0, 0, 10, 8, 1⟩ matchInstrumentFunction 5
        (by with_unfolding_all decide)).2.2.1
      ⟨"PT", 0, 50, 10, 8, 1⟩ [] (by with_unfolding_all decide)

/-- Counterexample to C4 as stated: with no function item on the page,
the emitted tag's `function` field is the JS empty string `''` — never
the null the claim postulates. -/
theorem fallback_function_not_null :
    ((findInstrumentFunctions [⟨"1234", 0, 0, 10, 8, 1⟩] (some matchInstrumentNumber)
        (some matchInstrumentFunction) none 0).map (fun t => (t.name, t.function)) =
      [("1234", some "")]) ∧
    (∀ t ∈ findInstrumentFunctions [⟨"1234", 0, 0, 10, 8, 1⟩] (some matchInstrumentNumber)
        (some matchInstrumentFunction) none 0, t.function ≠ none) := by
  constructor <;> with_unfolding_all decide

theorem findSome_guard_eq_find_filterMap {α β : Type} (g : α → Option β) (q : β → Bool) :
    ∀ l : List α,
      l.findSome? (fun a => (g a).bind (fun b => if q b then some b else none)) =
        (l.filterMap g).find? q := by
  intro l
  induction l with
  | nil => simp
  | cons a t ih =>
    rw [List.findSome?_cons, List.filterMap_cons]
    cases hg : g a with
    | none => simpa using ih
    | some b =>
      by_cases hq : q b = true
      · simp [hq, List.find?_cons]
      · simp [hq, List.find?_cons, ih]

theorem find_filter_and {α : Type} (p q : α → Bool) :
    ∀ l : List α, (l.filter p).find? q = l.find? (fun a => p a && q a) := by
  intro l
  induction l with
  | nil => rfl
  | cons a t ih =>
    by_cases hp : p a = true
    · by_cases hq : q a = true
      · simp [List.filter_cons, hp, List.find?_cons, hq]
      · simp [List.filter_cons, hp, List.find?_cons, hq, ih]
    · simp [List.filter_cons, hp, List.find?_cons, ih]

/-- C5: classification tests the active rules in the fixed order
Line_number, Equipment_number, Instrument_number, Instrument_function,
then the remaining rules in insertion order, and returns the first
match; hence any text matching an active rule stored under one of the
four built-in names is classified under a built-in name, regardless of
match length. -/
theorem priority_classification :
    (∀ (active : List (String × PatInfo)) (text : String),
      findMatchingPattern active text =
        (reorderedActive active).find? (fun e => e.2.test text)) ∧
    (∀ (active : List (String × PatInfo)) (text n : String) (p : PatInfo),
      n ∈ priorityOrder → lookupPattern active n = some p → p.test text = true →
      ∃ m q, findMatchingPattern active text = some (m, q) ∧ m ∈ priorityOrder) := by
  have hmain : ∀ (active : List (String × PatInfo)) (text : String),
      findMatchingPattern active text =
        (reorderedActive active).find? (fun e => e.2.test text) := by
    intro active text
    unfold findMatchingPattern reorderedActive
    rw [List.find?_append]
    have hbody : (fun n =>
        match lookupPattern active n with
        | some p => if p.test text then some (n, p) else none
        | none => none) =
        (fun n =>
          ((lookupPattern active n).map (fun p => (n, p))).bind
            (fun b => if b.2.test text then some b else none)) := by
      funext n
      cases lookupPattern active n <;> rfl
    rw [hbody, findSome_guard_eq_find_filterMap
      (fun n => (lookupPattern active n).map (fun p => (n, p)))
      (fun e => e.2.test text) priorityOrder]
    rw [find_filter_and (fun e => !(priorityOrder.contains e.1))
      (fun e => e.2.test text) active]
    cases hf : (priorityOrder.filterMap
        (fun n => (lookupPattern active n).map (fun p => (n, p)))).find?
        (fun e => e.2.test text) with
    | some r => simp [Option.or]
    | none => simp [Option.or]
  refine ⟨hmain, ?_⟩
  intro active text n p hn hl ht
  rw [hmain active text]
  have hmem : (n, p) ∈ priorityOrder.filterMap
      (fun m => (lookupPattern active m).map (fun r => (m, r))) := by
    rw [List.mem_filterMap]
    exact ⟨n, hn, by rw [hl]; rfl⟩
  have hsome : ((priorityOrder.filterMap
      (fun m => (lookupPattern active m).map (fun r => (m, r)))).find?
      (fun e => e.2.test text)).isSome := by
    rw [List.find?_isSome]
    exact ⟨(n, p), hmem, ht⟩
  obtain ⟨r, hr⟩ := Option.isSome_iff_exists.mp hsome
  obtain ⟨m, hm, hg⟩ := List.mem_filterMap.mp (List.mem_of_find?_eq_some hr)
  cases hlm : lookupPattern active m with
  | none => rw [hlm] at hg; exact absurd hg (by simp)
  | some w =>
    rw [hlm] at hg
    have hrmw : r = (m, w) := by simpa using hg.symm
    refine ⟨m, w, ?_, hm⟩
    unfold reorderedActive
    rw [List.find?_append, hr, hrmw]
    rfl

/-- Witness for `priority_classification`: the text `PT` matches both
the built-in `Instrument_function` rule and a user rule matching
exactly `PT`; classification lands on a built-in name. -/
theorem priority_classification_witness :
    ∃ m q,
      findMatchingPattern
        (defaultActive ++ [("User_PT", ⟨fun s => s == "PT", "#808080", "user rule", "custom"⟩)])
        "PT" = some (m, q) ∧ m ∈ priorityOrder :=
  priority_classification.2
    (defaultActive ++ [("User_PT", ⟨fun s => s == "PT", "#808080", "user rule", "custom"⟩)])
    "PT" "Instrument_function"
    ⟨matchInstrumentFunction, "#0000FF", "Instrument function code (e.g., PT, TT, FT)",
      "instrument"⟩
    (by decide) (by with_unfolding_all rfl) (by decide)

theorem firstInvalid_none_iff (valid : String → Bool) :
    ∀ l : List (String × StoredPattern),
      firstInvalid valid l = none ↔ ∀ e ∈ l, valid e.2.pattern = true := by
  intro l
  induction l with
  | nil => simp [firstInvalid]
  | cons a t ih =>
    obtain ⟨an, ap⟩ := a
    have hstep : firstInvalid valid ((an, ap) :: t) =
        if valid ap.pattern then firstInvalid valid t else some an := rfl
    by_cases h : valid ap.pattern = true
    · rw [hstep, if_pos h, ih]
      constructor
      · intro hall e he
        rcases List.mem_cons.mp he with rfl | he'
        · exact h
        · exact hall e he'
      · intro hall e he
        exact hall e (List.mem_cons_of_mem _ he)
    · rw [hstep, if_neg h]
      constructor
      · intro hsome
        exact absurd hsome (by simp)
      · intro hall
        exact absurd (hall (an, ap) (List.mem_cons_self _ _)) h

/-- C6 (as amended): the import validates every regex in the payload's
`userPatterns` section before accepting any rule, and is atomic with
respect to that section — any invalid user rule makes the call throw
with the registry unchanged, and a fully valid `userPatterns` section
never throws; the `defaultOverrides` section, by contrast, is applied
without any regex validation. -/
theorem import_atomic_on_user_rules :
    ∀ (valid : String → Bool) (st : Registry) (d : ImportData)
      (ups : List (String × StoredPattern)),
      d.userPatterns = some ups →
      ((∃ e ∈ ups, valid e.2.pattern = false) →
        (importPatterns valid st d).1 = st ∧ (importPatterns valid st d).2 ≠ none) ∧
      ((∀ e ∈ ups, valid e.2.pattern = true) →
        (importPatterns valid st d).2 = none) := by
  intro valid st d ups hups
  obtain ⟨dup, dov⟩ := d
  simp only at hups
  subst hups
  constructor
  · rintro ⟨e, he, hbad⟩
    have hfi : ∃ nm, firstInvalid valid ups = some nm := by
      cases hf : firstInvalid valid ups with
      | some nm => exact ⟨nm, rfl⟩
      | none =>
        have hall := (firstInvalid_none_iff valid ups).mp hf
        rw [hall e he] at hbad
        exact absurd hbad (by simp)
    obtain ⟨nm, hnm⟩ := hfi
    simp only [importPatterns]
    rw [hnm]
    exact ⟨rfl, by simp⟩
  · intro hall
    have hfi : firstInvalid valid ups = none := (firstInvalid_none_iff valid ups).mpr hall
    simp only [importPatterns]
    rw [hfi]

/-- Witness for `import_atomic_on_user_rules`: a payload with one
invalid user rule leaves the initial registry untouched and throws. -/
theorem import_atomic_witness :
    ((importPatterns (fun s => !(s == "(")) initialRegistry
      ⟨some [("Bad", ⟨"(", "#808080", "", "custom", true⟩)], none⟩).1 = initialRegistry ∧
    (importPatterns (fun s => !(s == "(")) initialRegistry
      ⟨some [("Bad", ⟨"(", "#808080", "", "custom", true⟩)], none⟩).2 ≠ none) ∧
    (importPatterns (fun s => !(s == "(")) initialRegistry
      ⟨some [("Good", ⟨"ok", "#808080", "", "custom", true⟩)], none⟩).2 = none :=
  ⟨(import_atomic_on_user_rules (fun s => !(s == "(")) initialRegistry
      ⟨some [("Bad", ⟨"(", "#808080", "", "custom", true⟩)], none⟩
      [("Bad", ⟨"(", "#808080", "", "custom", true⟩)] rfl).1
      ⟨("Bad", ⟨"(", "#808080", "", "custom", true⟩), by decide, by decide⟩,
   (import_atomic_on_user_rules (fun s => !(s == "(")) initialRegistry
      ⟨some [("Good", ⟨"ok", "#808080", "", "custom", true⟩)], none⟩
      [("Good", ⟨"ok", "#808080", "", "custom", true⟩)] rfl).2
      (by decide)⟩

/-- Counterexample to C6 as stated: a payload whose `defaultOverrides`
section carries the regex `(` — which `new RegExp` rejects — is
imported without any throw, and it mutates the registry (the
`Line_number` default now stores the invalid regex).  The oracle used
marks exactly `(` as non-compiling. -/
theorem import_overrides_unvalidated :
    (fun s => !(s == "(")) "(" = false ∧
    (importPatterns (fun s => !(s == "(")) initialRegistry
      ⟨none, some [("Line_number", ⟨some "(", none⟩)]⟩).2 = none ∧
    (importPatterns (fun s => !(s == "(")) initialRegistry
      ⟨none, some [("Line_number", ⟨some "(", none⟩)]⟩).1 ≠ initialRegistry ∧
    ((importPatterns (fun s => !(s == "(")) initialRegistry
      ⟨none, some [("Line_number", ⟨some "(", none⟩)]⟩).1.defaultPatterns.map
        (fun e => (e.1, e.2.pattern))).contains ("Line_number", "(") = true := by
  refine ⟨rfl, rfl, by decide, by decide⟩

theorem strStartsWith_iff (s p : String) :
    strStartsWith s p = true ↔ p.toList <+: s.toList := by
  simp [strStartsWith]

theorem equipment_prefixes_incomparable :
    equipmentTypes.Pairwise (fun a b =>
      a.1.toList.isPrefixOf b.1.toList = false ∧
      b.1.toList.isPrefixOf a.1.toList = false) := by
  decide

theorem prefix_filter_length_le_one (l : List (String × String)) (s : String)
    (hp : l.Pairwise (fun a b =>
      a.1.toList.isPrefixOf b.1.toList = false ∧
      b.1.toList.isPrefixOf a.1.toList = false)) :
    (l.filter (fun kv => strStartsWith s kv.1)).length ≤ 1 := by
  induction l with
  | nil => simp
  | cons a t ih =>
    rcases List.pairwise_cons.mp hp with ⟨ha, ht⟩
    by_cases hm : strStartsWith s a.1 = true
    · have hnone : t.filter (fun kv => strStartsWith s kv.1) = [] := by
        rw [List.filter_eq_nil_iff]
        intro kv hkv hmatch
        have h2 : kv.1.toList <+: s.toList := (strStartsWith_iff _ _).mp hmatch
        have h3 : a.1.toList <+: s.toList := (strStartsWith_iff _ _).mp hm
        rcases List.prefix_or_prefix_of_prefix h3 h2 with h | h
        · have h4 : a.1.toList.isPrefixOf kv.1.toList = true :=
            List.isPrefixOf_iff_prefix.mpr h
          rw [(ha kv hkv).1] at h4
          exact absurd h4 (by simp)
        · have h4 : kv.1.toList.isPrefixOf a.1.toList = true :=
            List.isPrefixOf_iff_prefix.mpr h
          rw [(ha kv hkv).2] at h4
          exact absurd h4 (by simp)
      simp [List.filter_cons, hm, hnone]
    · simp only [List.filter_cons, hm, Bool.false_eq_true, if_neg, ite_false]
      exact ih ht

/-- C9: for every tag name classified as equipment, the derived type is
the value of the longest prefix of the name present in the fixed
equipment-prefix dictionary, and names with no dictionary prefix get
the generic type `Equipment`.  (The dictionary is mutually prefix-free,
so the code's first-match scan realises exactly the longest-prefix
rule.) -/
theorem equipment_type_longest_prefix :
    ∀ tagName : String, getTagType tagName "equipment" = longestPrefixType tagName := by
  intro tagName
  have hle := prefix_filter_length_le_one equipmentTypes tagName
    equipment_prefixes_incomparable
  have hfind : equipmentTypes.find? (fun kv => strStartsWith tagName kv.1) =
      (equipmentTypes.filter (fun kv => strStartsWith tagName kv.1)).head? :=
    (List.filter_head? _ _).symm
  unfold getTagType longestPrefixType
  rw [if_pos (by rfl), hfind]
  rcases hfe : equipmentTypes.filter (fun kv => strStartsWith tagName kv.1) with
    _ | ⟨kv, rest⟩
  · rw [hfe]
    rfl
  · rw [hfe] at hle
    rcases rest with _ | ⟨kv2, rest2⟩
    · rw [hfe]
      rfl
    · simp at hle

theorem beq_symm_str (a b : String) : (a == b) = (b == a) := by
  by_cases h : a = b
  · rw [h]
  · have h1 : (a == b) = false := by simpa using h
    have h2 : (b == a) = false := by simpa using fun e => h e.symm
    rw [h1, h2]

theorem contains_map_name (l : List GenTag) (s : String) :
    (l.map (fun t => t.name)).contains s = l.any (fun t => t.name == s) := by
  induction l with
  | nil => rfl
  | cons a t ih =>
    rw [List.map_cons, List.contains_cons, List.any_cons, ih, beq_symm_str]

theorem classifyStep_equipment_names (active : List (String × PatInfo)) (now : Nat)
    (acc : Recognized) (it : Item) :
    (classifyStep active now acc it).equipment.map (fun t => t.name) =
      if categoryOf active it.text == some "equipment" then
        (if (acc.equipment.map (fun t => t.name)).contains it.text then
          acc.equipment.map (fun t => t.name)
        else acc.equipment.map (fun t => t.name) ++ [it.text])
      else acc.equipment.map (fun t => t.name) := by
  rw [contains_map_name]
  unfold classifyStep categoryOf
  cases hm : findMatchingPattern active it.text with
  | none => simp
  | some mr =>
    simp only [Option.map_some']
    by_cases hcat : mr.2.category = "equipment"
    · simp only [hcat, beq_self_eq_true, if_pos]
      by_cases hdup : acc.equipment.any (fun t =>
          t.name == (createTagObjectWithPosition it.text "equipment" mr it now).name) = true
      · have hdup2 : acc.equipment.any (fun t => t.name == it.text) = true := hdup
        simp [hdup, hdup2]
      · have hdup2 : acc.equipment.any (fun t => t.name == it.text) = false := by
          simpa using hdup
        simp [hdup, hdup2]
        rfl
    · have hb : (mr.2.category == "equipment") = false := by simpa using hcat
      simp only [hb, Bool.false_eq_true, if_false]
      by_cases hcat2 : mr.2.category = "line"
      · simp only [hcat2, beq_self_eq_true, if_pos]
        by_cases hdup : acc.line.any (fun t =>
            t.name == (createTagObjectWithPosition it.text "line" mr it now).name) = true
        · simp [hdup]
        · simp [Bool.eq_false_iff.mpr hdup]
      · have hb2 : (mr.2.category == "line") = false := by simpa using hcat2
        simp [hb2, hcat, hcat2]

theorem classifyStep_line_names (active : List (String × PatInfo)) (now : Nat)
    (acc : Recognized) (it : Item) :
    (classifyStep active now acc it).line.map (fun t => t.name) =
      if categoryOf active it.text == some "line" then
        (if (acc.line.map (fun t => t.name)).contains it.text then
          acc.line.map (fun t => t.name)
        else acc.line.map (fun t => t.name) ++ [it.text])
      else acc.line.map (fun t => t.name) := by
  rw [contains_map_name]
  unfold classifyStep categoryOf
  cases hm : findMatchingPattern active it.text with
  | none => simp
  | some mr =>
    simp only [Option.map_some']
    by_cases hcat : mr.2.category = "equipment"
    · simp only [hcat, beq_self_eq_true, if_pos]
      have hb : ((some "equipment" : Option String) == some "line") = false := by decide
      by_cases hdup : acc.equipment.any (fun t =>
          t.name == (createTagObjectWithPosition it.text "equipment" mr it now).name) = true
      · simp [hdup, hb]
      · simp [Bool.eq_false_iff.mpr hdup, hb]
    · have hb : (mr.2.category == "equipment") = false := by simpa using hcat
      simp only [hb, Bool.false_eq_true, if_false]
      by_cases hcat2 : mr.2.category = "line"
      · simp only [hcat2, beq_self_eq_true, if_pos]
        by_cases hdup : acc.line.any (fun t =>
            t.name == (createTagObjectWithPosition it.text "line" mr it now).name) = true
        · have hdup2 : acc.line.any (fun t => t.name == it.text) = true := hdup
          simp [hdup, hdup2]
        · have hdup2 : acc.line.any (fun t => t.name == it.text) = false := by
            simpa using hdup
          simp [hdup, hdup2]
          rfl
      · have hb2 : (mr.2.category == "line") = false := by simpa using hcat2
        simp [hb2, hcat, hcat2]

theorem classify_fold_names (active : List (String × PatInfo)) (now : Nat) :
    ∀ (items : List Item) (acc : Recognized),
      ((items.foldl (classifyStep active now) acc).equipment.map (fun t => t.name) =
        ((items.filter (fun it => categoryOf active it.text == some "equipment")).map
          (fun it => it.text)).foldl
          (fun ns s => if ns.contains s then ns else ns ++ [s])
          (acc.equipment.map (fun t => t.name))) ∧
      ((items.foldl (classifyStep active now) acc).line.map (fun t => t.name) =
        ((items.filter (fun it => categoryOf active it.text == some "line")).map
          (fun it => it.text)).foldl
          (fun ns s => if ns.contains s then ns else ns ++ [s])
          (acc.line.map (fun t => t.name))) := by
  intro items
  induction items with
  | nil => intro acc; exact ⟨rfl, rfl⟩
  | cons it rest ih =>
    intro acc
    rw [List.foldl_cons, List.filter_cons, List.filter_cons]
    constructor
    · rcases ih (classifyStep active now acc it) with ⟨ihe, _⟩
      rw [ihe, classifyStep_equipment_names]
      by_cases hcat : categoryOf active it.text == some "equipment"
      · rw [if_pos hcat, if_pos hcat, List.map_cons, List.foldl_cons]
      · have hb : (categoryOf active it.text == some "equipment") = false := by
          simpa using hcat
        rw [hb]
        simp only [Bool.false_eq_true, if_false]
    · rcases ih (classifyStep active now acc it) with ⟨_, ihl⟩
      rw [ihl, classifyStep_line_names]
      by_cases hcat : categoryOf active it.text == some "line"
      · rw [if_pos hcat, if_pos hcat, List.map_cons, List.foldl_cons]
      · have hb : (categoryOf active it.text == some "line") = false := by
          simpa using hcat
        rw [hb]
        simp only [Bool.false_eq_true, if_false]

theorem simpleStep_equipment_names (active : List (String × PatInfo)) (now : Nat)
    (acc : Recognized) (tok : String) :
    (simpleStep active now acc tok).equipment.map (fun t => t.name) =
      if categoryOf active tok == some "equipment" then
        (if (acc.equipment.map (fun t => t.name)).contains tok then
          acc.equipment.map (fun t => t.name)
        else acc.equipment.map (fun t => t.name) ++ [tok])
      else acc.equipment.map (fun t => t.name) := by
  rw [contains_map_name]
  unfold simpleStep categoryOf
  cases hm : findMatchingPattern active tok with
  | none => simp
  | some mr =>
    simp only [Option.map_some']
    by_cases hcat : mr.2.category = "equipment"
    · simp only [hcat, beq_self_eq_true, if_pos]
      by_cases hdup : acc.equipment.any (fun t =>
          t.name == (createTagObject tok "equipment" mr now).name) = true
      · have hdup2 : acc.equipment.any (fun t => t.name == tok) = true := hdup
        simp [hdup, hdup2]
      · have hdup2 : acc.equipment.any (fun t => t.name == tok) = false := by
          simpa using hdup
        simp [hdup, hdup2]
        rfl
    · have hb : (mr.2.category == "equipment") = false := by simpa using hcat
      simp only [hb, Bool.false_eq_true, if_false]
      by_cases hcat2 : mr.2.category = "line"
      · simp only [hcat2, beq_self_eq_true, if_pos]
        by_cases hdup : acc.line.any (fun t =>
            t.name == (createTagObject tok "line" mr now).name) = true
        · simp [hdup]
        · simp [Bool.eq_false_iff.mpr hdup]
      · have hb2 : (mr.2.category == "line") = false := by simpa using hcat2
        simp [hb2, hcat, hcat2]

theorem simpleStep_line_names (active : List (String × PatInfo)) (now : Nat)
    (acc : Recognized) (tok : String) :
    (simpleStep active now acc tok).line.map (fun t => t.name) =
      if categoryOf active tok == some "line" then
        (if (acc.line.map (fun t => t.name)).contains tok then
          acc.line.map (fun t => t.name)
        else acc.line.map (fun t => t.name) ++ [tok])
      else acc.line.map (fun t => t.name) := by
  rw [contains_map_name]
  unfold simpleStep categoryOf
  cases hm : findMatchingPattern active tok with
  | none => simp
  | some mr =>
    simp only [Option.map_some']
    by_cases hcat : mr.2.category = "equipment"
    · simp only [hcat, beq_self_eq_true, if_pos]
      have hb : ((some "equipment" : Option String) == some "line") = false := by decide
      by_cases hdup : acc.equipment.any (fun t =>
          t.name == (createTagObject tok "equipment" mr now).name) = true
      · simp [hdup, hb]
      · simp [Bool.eq_false_iff.mpr hdup, hb]
    · have hb : (mr.2.category == "equipment") = false := by simpa using hcat
      simp only [hb, Bool.false_eq_true, if_false]
      by_cases hcat2 : mr.2.category = "line"
      · simp only [hcat2, beq_self_eq_true, if_pos]
        by_cases hdup : acc.line.any (fun t =>
            t.name == (createTagObject tok "line" mr now).name) = true
        · have hdup2 : acc.line.any (fun t => t.name == tok) = true := hdup
          simp [hdup, hdup2]
        · have hdup2 : acc.line.any (fun t => t.name == tok) = false := by
            simpa using hdup
          simp [hdup, hdup2]
          rfl
      · have hb2 : (mr.2.category == "line") = false := by simpa using hcat2
        simp [hb2, hcat, hcat2]

theorem simple_fold_names (active : List (String × PatInfo)) (now : Nat) :
    ∀ (toks : List String) (acc : Recognized),
      ((toks.foldl (simpleStep active now) acc).equipment.map (fun t => t.name) =
        (toks.filter (fun tok => categoryOf active tok == some "equipment")).foldl
          (fun ns s => if ns.contains s then ns else ns ++ [s])
          (acc.equipment.map (fun t => t.name))) ∧
      ((toks.foldl (simpleStep active now) acc).line.map (fun t => t.name) =
        (toks.filter (fun tok => categoryOf active tok == some "line")).foldl
          (fun ns s => if ns.contains s then ns else ns ++ [s])
          (acc.line.map (fun t => t.name))) := by
  intro toks
  induction toks with
  | nil => intro acc; exact ⟨rfl, rfl⟩
  | cons tok rest ih =>
    intro acc
    rw [List.foldl_cons, List.filter_cons, List.filter_cons]
    constructor
    · rcases ih (simpleStep active now acc tok) with ⟨ihe, _⟩
      rw [ihe, simpleStep_equipment_names]
      by_cases hcat : categoryOf active tok == some "equipment"
      · rw [if_pos hcat, if_pos hcat, List.foldl_cons]
      · have hb : (categoryOf active tok == some "equipment") = false := by
          simpa using hcat
        rw [hb]
        simp only [Bool.false_eq_true, if_false]
    · rcases ih (simpleStep active now acc tok) with ⟨_, ihl⟩
      rw [ihl, simpleStep_line_names]
      by_cases hcat : categoryOf active tok == some "line"
      · rw [if_pos hcat, if_pos hcat, List.foldl_cons]
      · have hb : (categoryOf active tok == some "line") = false := by
          simpa using hcat
        rw [hb]
        simp only [Bool.false_eq_true, if_false]

/-- C7 (as amended): within one recognition pass — positional or
degraded — the equipment and line tag lists carry each (category, name)
once, with the retained entry the first occurrence in input order
(their name sequences are the first-occurrence deduplication of the
classified inputs' texts); the example token `P-101`, matched by a user
equipment rule and appearing twice in a text blob, yields exactly one
equipment tag.  Instrument tags, by contrast, are emitted once per
number item with no deduplication (see the counterexample). -/
theorem dedup_first_occurrence :
    (∀ (active : List (String × PatInfo)) (items : List Item) (now : Nat),
      (recognizeTagsWithPositions active items now).equipment.map (fun t => t.name) =
        dedupFirst ((items.filter
          (fun it => categoryOf active it.text == some "equipment")).map
          (fun it => it.text)) ∧
      (recognizeTagsWithPositions active items now).line.map (fun t => t.name) =
        dedupFirst ((items.filter
          (fun it => categoryOf active it.text == some "line")).map
          (fun it => it.text))) ∧
    (∀ (active : List (String × PatInfo)) (text : String) (now : Nat),
      (recognizeTagsSimple active text now).equipment.map (fun t => t.name) =
        dedupFirst ((extractTextTokens text).filter
          (fun tok => categoryOf active tok == some "equipment")) ∧
      (recognizeTagsSimple active text now).line.map (fun t => t.name) =
        dedupFirst ((extractTextTokens text).filter
          (fun tok => categoryOf active tok == some "line"))) ∧
    ((recognizeTags
        (defaultActive ++
          [("User_equipment", ⟨matchUserEquipment, "#808080", "user equipment", "equipment"⟩)])
        "P-101 P-101" none 0).equipment.map (fun t => t.name) = ["P-101"]) := by
  refine ⟨?_, ?_, by with_unfolding_all decide⟩
  · intro active items now
    have h := classify_fold_names active now items ⟨[], [], []⟩
    exact ⟨h.1, h.2⟩
  · intro active text now
    have h := simple_fold_names active now (extractTextTokens text) ⟨[], [], []⟩
    exact ⟨h.1, h.2⟩

/-- Counterexample to C7 as stated: two same-page items both reading
`1234` produce two instrument tags with identical category and name —
instrument tags are not deduplicated in the positional pass. -/
theorem instrument_not_deduplicated :
    (recognizeTagsWithPositions defaultActive
      [⟨"1234", 0, 0, 10, 8, 1⟩, ⟨"1234", 300, 0, 10, 8, 1⟩] 0).instrument.map
      (fun t => (t.category, t.name)) =
      [("instrument", "1234"), ("instrument", "1234")] := by
  with_unfolding_all decide

theorem stripGen_createWithPos (tn cat : String) (mr : String × PatInfo) (it : Item)
    (n1 n2 : Nat) :
    stripGen (createTagObjectWithPosition tn cat mr it n1) =
      stripGen (createTagObjectWithPosition tn cat mr it n2) := rfl

theorem stripGen_create (tn cat : String) (mr : String × PatInfo) (n1 n2 : Nat) :
    stripGen (createTagObject tn cat mr n1) = stripGen (createTagObject tn cat mr n2) := rfl

theorem stripInst_mk (items : List Item) (fp : String → Bool) (h dh : ℚ)
    (n1 n2 : Nat) (it : Item) :
    stripInst (mkInstrumentTag items fp h dh n1 it) =
      stripInst (mkInstrumentTag items fp h dh n2 it) := rfl

theorem map_name_strip (l : List GenTag) :
    l.map (fun t => t.name) = (l.map stripGen).map (fun t => t.name) := by
  rw [List.map_map]
  rfl

theorem createWithPos_name (tn cat : String) (mr : String × PatInfo) (it : Item)
    (now : Nat) : (createTagObjectWithPosition tn cat mr it now).name = tn := rfl

theorem create_name (tn cat : String) (mr : String × PatInfo) (now : Nat) :
    (createTagObject tn cat mr now).name = tn := rfl

theorem classifyStep_strip (active : List (String × PatInfo)) (n1 n2 : Nat)
    (acc1 acc2 : Recognized) (it : Item)
    (h : stripClock acc1 = stripClock acc2) :
    stripClock (classifyStep active n1 acc1 it) =
      stripClock (classifyStep active n2 acc2 it) := by
  have he : acc1.equipment.map stripGen = acc2.equipment.map stripGen :=
    congrArg Recognized.equipment h
  have hl : acc1.line.map stripGen = acc2.line.map stripGen :=
    congrArg Recognized.line h
  have hi : acc1.instrument.map stripInst = acc2.instrument.map stripInst :=
    congrArg Recognized.instrument h
  have hen : acc1.equipment.map (fun t => t.name) = acc2.equipment.map (fun t => t.name) := by
    rw [map_name_strip acc1.equipment, map_name_strip acc2.equipment, he]
  have hln : acc1.line.map (fun t => t.name) = acc2.line.map (fun t => t.name) := by
    rw [map_name_strip acc1.line, map_name_strip acc2.line, hl]
  unfold classifyStep
  cases hm : findMatchingPattern active it.text with
  | none => exact h
  | some mr =>
    by_cases hcat : mr.2.category = "equipment"
    · simp only [hcat, beq_self_eq_true, if_pos, createWithPos_name]
      have hcond : acc1.equipment.any (fun t => t.name == it.text) =
          acc2.equipment.any (fun t => t.name == it.text) := by
        rw [← contains_map_name, ← contains_map_name, hen]
      by_cases hdup : acc1.equipment.any (fun t => t.name == it.text) = true
      · rw [if_pos hdup, if_pos (hcond ▸ hdup)]
        exact h
      · have hdup2 : acc1.equipment.any (fun t => t.name == it.text) = false := by
          simpa using hdup
        rw [if_neg (by rw [hdup2]; simp), if_neg (by rw [← hcond, hdup2]; simp)]
        unfold stripClock
        simp only [List.map_append, List.map_cons, List.map_nil]
        rw [he, hl, hi, stripGen_createWithPos it.text "equipment" mr it n1 n2]
    · have hb : (mr.2.category == "equipment") = false := by simpa using hcat
      simp only [hb, Bool.false_eq_true, if_false]
      by_cases hcat2 : mr.2.category = "line"
      · simp only [hcat2, beq_self_eq_true, if_pos, createWithPos_name]
        have hcond : acc1.line.any (fun t => t.name == it.text) =
            acc2.line.any (fun t => t.name == it.text) := by
          rw [← contains_map_name, ← contains_map_name, hln]
        by_cases hdup : acc1.line.any (fun t => t.name == it.text) = true
        · rw [if_pos hdup, if_pos (hcond ▸ hdup)]
          exact h
        · have hdup2 : acc1.line.any (fun t => t.name == it.text) = false := by
            simpa using hdup
          rw [if_neg (by rw [hdup2]; simp), if_neg (by rw [← hcond, hdup2]; simp)]
          unfold stripClock
          simp only [List.map_append, List.map_cons, List.map_nil]
          rw [he, hl, hi, stripGen_createWithPos it.text "line" mr it n1 n2]
      · have hb2 : (mr.2.category == "line") = false := by simpa using hcat2
        simp only [hb2, Bool.false_eq_true, if_false]
        exact h

theorem simpleStep_strip (active : List (String × PatInfo)) (n1 n2 : Nat)
    (acc1 acc2 : Recognized) (tok : String)
    (h : stripClock acc1 = stripClock acc2) :
    stripClock (simpleStep active n1 acc1 tok) =
      stripClock (simpleStep active n2 acc2 tok) := by
  have he : acc1.equipment.map stripGen = acc2.equipment.map stripGen :=
    congrArg Recognized.equipment h
  have hl : acc1.line.map stripGen = acc2.line.map stripGen :=
    congrArg Recognized.line h
  have hi : acc1.instrument.map stripInst = acc2.instrument.map stripInst :=
    congrArg Recognized.instrument h
  have hen : acc1.equipment.map (fun t => t.name) = acc2.equipment.map (fun t => t.name) := by
    rw [map_name_strip acc1.equipment, map_name_strip acc2.equipment, he]
  have hln : acc1.line.map (fun t => t.name) = acc2.line.map (fun t => t.name) := by
    rw [map_name_strip acc1.line, map_name_strip acc2.line, hl]
  unfold simpleStep
  cases hm : findMatchingPattern active tok with
  | none => exact h
  | some mr =>
    by_cases hcat : mr.2.category = "equipment"
    · simp only [hcat, beq_self_eq_true, if_pos, create_name]
      have hcond : acc1.equipment.any (fun t => t.name == tok) =
          acc2.equipment.any (fun t => t.name == tok) := by
        rw [← contains_map_name, ← contains_map_name, hen]
      by_cases hdup : acc1.equipment.any (fun t => t.name == tok) = true
      · rw [if_pos hdup, if_pos (hcond ▸ hdup)]
        exact h
      · have hdup2 : acc1.equipment.any (fun t => t.name == tok) = false := by
          simpa using hdup
        rw [if_neg (by rw [hdup2]; simp), if_neg (by rw [← hcond, hdup2]; simp)]
        unfold stripClock
        simp only [List.map_append, List.map_cons, List.map_nil]
        rw [he, hl, hi, stripGen_create tok "equipment" mr n1 n2]
    · have hb : (mr.2.category == "equipment") = false := by simpa using hcat
      simp only [hb, Bool.false_eq_true, if_false]
      by_cases hcat2 : mr.2.category = "line"
      · simp only [hcat2, beq_self_eq_true, if_pos, create_name]
        have hcond : acc1.line.any (fun t => t.name == tok) =
            acc2.line.any (fun t => t.name == tok) := by
          rw [← contains_map_name, ← contains_map_name, hln]
        by_cases hdup : acc1.line.any (fun t => t.name == tok) = true
        · rw [if_pos hdup, if_pos (hcond ▸ hdup)]
          exact h
        · have hdup2 : acc1.line.any (fun t => t.name == tok) = false := by
            simpa using hdup
          rw [if_neg (by rw [hdup2]; simp), if_neg (by rw [← hcond, hdup2]; simp)]
          unfold stripClock
          simp only [List.map_append, List.map_cons, List.map_nil]
          rw [he, hl, hi, stripGen_create tok "line" mr n1 n2]
      · have hb2 : (mr.2.category == "line") = false := by simpa using hcat2
        simp only [hb2, Bool.false_eq_true, if_false]
        exact h

theorem foldl_classify_strip (active : List (String × PatInfo)) :
    ∀ (items : List Item) (n1 n2 : Nat) (acc1 acc2 : Recognized),
      stripClock acc1 = stripClock acc2 →
      stripClock (items.foldl (classifyStep active n1) acc1) =
        stripClock (items.foldl (classifyStep active n2) acc2) := by
  intro items
  induction items with
  | nil => intro n1 n2 acc1 acc2 h; exact h
  | cons it rest ih =>
    intro n1 n2 acc1 acc2 h
    rw [List.foldl_cons, List.foldl_cons]
    exact ih n1 n2 _ _ (classifyStep_strip active n1 n2 acc1 acc2 it h)

theorem foldl_simple_strip (active : List (String × PatInfo)) :
    ∀ (toks : List String) (n1 n2 : Nat) (acc1 acc2 : Recognized),
      stripClock acc1 = stripClock acc2 →
      stripClock (toks.foldl (simpleStep active n1) acc1) =
        stripClock (toks.foldl (simpleStep active n2) acc2) := by
  intro toks
  induction toks with
  | nil => intro n1 n2 acc1 acc2 h; exact h
  | cons tok rest ih =>
    intro n1 n2 acc1 acc2 h
    rw [List.foldl_cons, List.foldl_cons]
    exact ih n1 n2 _ _ (simpleStep_strip active n1 n2 acc1 acc2 tok h)

theorem findInstrumentFunctions_strip (items : List Item)
    (np fp : Option (String → Bool)) (sh : Option ℚ) (n1 n2 : Nat) :
    (findInstrumentFunctions items np fp sh n1).map stripInst =
      (findInstrumentFunctions items np fp sh n2).map stripInst := by
  unfold findInstrumentFunctions
  cases np with
  | none => cases fp <;> rfl
  | some np' =>
    cases fp with
    | none => rfl
    | some fp' =>
      simp only [List.map_map]
      apply List.map_congr_left
      intro a _
      exact stripInst_mk items fp' _ _ n1 n2 a

/-- C8 (as amended): one recognition run is a pure function of the
input, the registry, and the clock reading; two runs on the same
immutable input agree on every field except the clock-derived `id` and
`created`, and coincide entirely when the clock readings coincide. -/
theorem recognition_clock_independent :
    ∀ (active : List (String × PatInfo)) (text : String)
      (items : Option (List Item)) (n1 n2 : Nat),
      stripClock (recognizeTags active text items n1) =
        stripClock (recognizeTags active text items n2) := by
  intro active text items n1 n2
  cases items with
  | none =>
    unfold recognizeTags recognizeTagsSimple
    exact foldl_simple_strip active (extractTextTokens text) n1 n2 ⟨[], [], []⟩ ⟨[], [], []⟩ rfl
  | some its =>
    unfold recognizeTags recognizeTagsWithPositions
    have hbase := foldl_classify_strip active its n1 n2 ⟨[], [], []⟩ ⟨[], [], []⟩ rfl
    have he : (its.foldl (classifyStep active n1) ⟨[], [], []⟩).equipment.map stripGen =
        (its.foldl (classifyStep active n2) ⟨[], [], []⟩).equipment.map stripGen :=
      congrArg Recognized.equipment hbase
    have hl : (its.foldl (classifyStep active n1) ⟨[], [], []⟩).line.map stripGen =
        (its.foldl (classifyStep active n2) ⟨[], [], []⟩).line.map stripGen :=
      congrArg Recognized.line hbase
    have hinst := findInstrumentFunctions_strip its
      ((lookupPattern active "Instrument_number").map (fun p => p.test))
      ((lookupPattern active "Instrument_function").map (fun p => p.test)) none n1 n2
    unfold stripClock
    simp only
    rw [he, hl, hinst]

/-- Counterexample to C8 as stated: the same single-item input
recognised at clock readings 0 and 1 yields outputs that differ
field-for-field (in the `id` and `created` fields). -/
theorem output_differs_across_clock :
    recognizeTags defaultActive "" (some [⟨"1234", 0, 0, 10, 8, 1⟩]) 0 ≠
      recognizeTags defaultActive "" (some [⟨"1234", 0, 0, 10, 8, 1⟩]) 1 := by
  with_unfolding_all decide

end PID
